import Mathlib

/-!
Verification of the libabigail suppression engine (src/abg-suppression.cc)
against its natural-language specification.

The development shallowly embeds the suppression engine: rule records, the
diff-time matcher, the offset-expression evaluator and the rule parser are
translated from `src/abg-suppression.cc`.  External collaborators that are
not part of the sources (the regex engine, the ini tokenizer, and a few IR
accessors from abg-ir/abg-comparison) are modelled from the specification's
description of their interfaces; each such definition is marked
"Modelled from the spec".

Machine integers (`uint64_t`) are modelled as `Nat`; the single place where
wrap-around matters (the conversion of the integer literal `-1` to the
"end" sentinel `UINT64_MAX`) takes an explicit `% 2^64`.  C++ functions that
can abort (failed `ABG_ASSERT`, null-pointer dereference) are modelled with
an `Option` result where `none` stands for the abort.
-/

namespace Abg

/-- The "end of insertion range" sentinel: `std::numeric_limits<uint64_t>::max()`. -/
def uint64_max : Nat := 2 ^ 64 - 1

-- <string utilities>

/-- Character-list recursion keeping only the segment after the last slash. -/
def base_name_chars : List Char → List Char → List Char
  | [], acc => acc.reverse
  | c :: cs, acc =>
    if c = '/' then base_name_chars cs [] else base_name_chars cs (c :: acc)

/-- Modelled from the spec: `tools_utils::base_name` (not under src/) returns
the base name of a path, i.e. the component after the last `/`. -/
def base_name (s : String) : String := ⟨base_name_chars s.data []⟩

/-- Character-list test that `p` is a prefix of `s`; used only by the concrete
regex engines of witnesses. -/
def chars_le : List Char → List Char → Bool
  | [], _ => true
  | _ :: _, [] => false
  | a :: as_, b :: bs => a = b && chars_le as_ bs

/-- String prefix test on the character lists (used by witness regex engines). -/
def str_starts_with (s p : String) : Bool := chars_le p.data s.data

/-- Numeric value of a digit character list (most significant first). -/
def digits_val : List Char → Nat → Nat
  | [], acc => acc
  | c :: cs, acc => digits_val cs (acc * 10 + (c.toNat - 48))

/-- Modelled from the spec: C `atoi` at the call sites of the parser, which
always guard with `isdigit(str[0])`; value of the maximal leading digit run. -/
def atoi (s : String) : Int := (digits_val (s.data.takeWhile Char.isDigit) 0 : Nat)

-- </string utilities>

-- <regex engine model>

/-- A compiled regex is represented by its source text; matching is delegated
to a `RegexEngine` (the regex component is an external collaborator of the
suppression engine, not part of the sources under verification). -/
abbrev Rx := String

/-- Modelled from the spec: the external regex component (C1 of the spec),
given as an abstract engine that decides which sources compile and which
strings a compiled regex matches. -/
structure RegexEngine where
  compiles : String → Bool
  rmatches : Rx → String → Bool

/-- Model of `regex::compile`: returns the compiled regex or null. -/
def regex_compile (E : RegexEngine) (s : String) : Option Rx :=
  if E.compiles s then some s else none

/-- Model of `regex::match` on a non-null compiled regex. -/
def regex_match (E : RegexEngine) (r : Rx) (s : String) : Bool := E.rmatches r s

-- </regex engine model>

-- <ini model>

/-- Modelled from the spec: an ini property value is a scalar, a list of
scalars, or a tuple of property values. -/
inductive PropertyValue where
  | scalar (s : String)
  | list (items : List String)
  | tuple (items : List PropertyValue)

/-- Modelled from the spec: a named ini property. -/
structure Property where
  name : String
  value : PropertyValue

/-- Modelled from the spec: an ini section: a name and an ordered list of
properties (a multimap). -/
structure IniSection where
  name : String
  properties : List Property

/-- Model of `ini::config::section::find_property`: first property with the
given name. -/
def find_property (sec : IniSection) (n : String) : Option Property :=
  sec.properties.find? (fun p => p.name = n)

/-- Model of `is_simple_property`: the scalar payload when the property is
simple. -/
def is_simple_property : Option Property → Option String
  | some ⟨_, PropertyValue.scalar s⟩ => some s
  | _ => none

/-- Model of `is_list_property`: the string list payload when the property is
a list property. -/
def is_list_property : Option Property → Option (List String)
  | some ⟨_, PropertyValue.list xs⟩ => some xs
  | _ => none

/-- Model of `is_tuple_property`: the tuple payload when the property is a
tuple property. -/
def is_tuple_property : Option Property → Option (List PropertyValue)
  | some ⟨_, PropertyValue.tuple xs⟩ => some xs
  | _ => none

/-- A function call expression `identifier(arg1, ..., argN)` of the ini
component. -/
structure FnCallExpr where
  name : String
  arguments : List String
deriving DecidableEq

/-- Removes leading and trailing whitespace from a character list. -/
def trim_chars (cs : List Char) : List Char :=
  ((cs.dropWhile Char.isWhitespace).reverse.dropWhile Char.isWhitespace).reverse

/-- Splits a comma-separated character list into trimmed items. -/
def split_args : List Char → List Char → List String → List String
  | [], cur, acc => (acc ++ [(⟨trim_chars cur.reverse⟩ : String)]).filter (fun a => a ≠ "")
  | c :: cs, cur, acc =>
    if c = ',' then split_args cs [] (acc ++ [(⟨trim_chars cur.reverse⟩ : String)])
    else split_args cs (c :: cur) acc

/-- Modelled from the spec: `ini::read_function_call_expr` (not under src/)
parses `identifier(arg1, ..., argN)` with N ≥ 0; returns null on malformed
input. -/
def read_function_call_expr (s : String) : Option FnCallExpr :=
  match s.data.dropWhile Char.isWhitespace with
  | [] => none
  | cs =>
    let ident := cs.takeWhile (fun c => c.isAlphanum || c = '_')
    let rest := cs.dropWhile (fun c => c.isAlphanum || c = '_')
    if ident.isEmpty then none
    else
      match rest with
      | '(' :: rest2 =>
        let inner := rest2.takeWhile (fun c => c ≠ ')')
        let rest3 := rest2.dropWhile (fun c => c ≠ ')')
        match rest3 with
        | [')'] => some ⟨⟨ident⟩, split_args inner [] []⟩
        | _ => none
      | _ => none

-- </ini model>

-- <string and property parsing from abg-suppression.cc>

/-- Model of `string_to_boolean`: parses `yes|true|no|false`. -/
def string_to_boolean (str : String) : Option Bool :=
  if str = "yes" || str = "true" then some true
  else if str = "no" || str = "false" then some false
  else none

/-- Model of `read(const ini::property_sptr&, std::string&)`: reads a string
from a simple property. -/
def read_string_prop (prop : Property) : Option String :=
  is_simple_property (some prop)

/-- Model of `read(const ini::property_sptr&, regex_t_sptr&)`: reads and
compiles a regex from a simple property. -/
def read_regex_prop (E : RegexEngine) (prop : Property) : Option Rx :=
  (read_string_prop prop).bind (regex_compile E)

/-- Model of `read(const ini::property_sptr&, bool&)`: reads a boolean from a
simple property. -/
def read_bool_prop (prop : Property) : Option Bool :=
  (read_string_prop prop).bind string_to_boolean

/-- Model of `check_sufficient_props`: the section has at least one of the
given properties. -/
def check_sufficient_props (names : List String) (sec : IniSection) : Bool :=
  names.any (fun n => (find_property sec n).isSome)

-- </string and property parsing from abg-suppression.cc>

-- <rule model: the fields of suppression_base::priv and the derived rules>

/-- The fields of `suppression_base::priv` (label, drop and artificial flags,
binary-scope regexes); shared by every rule kind. -/
structure SuppressionBase where
  is_artificial : Bool := false
  drops_artifact : Bool := false
  label : String := ""
  file_name_regex : Option Rx := none
  file_name_not_regex : Option Rx := none
  soname_regex : Option Rx := none
  soname_not_regex : Option Rx := none

/-- Model of `suppression_base::has_file_name_related_property`. -/
def has_file_name_related_property (b : SuppressionBase) : Bool :=
  b.file_name_regex.isSome || b.file_name_not_regex.isSome

/-- Model of `suppression_base::has_soname_related_property`. -/
def has_soname_related_property (b : SuppressionBase) : Bool :=
  b.soname_regex.isSome || b.soname_not_regex.isSome

/-- Model of `suppression_base::matches_binary_name`. -/
def matches_binary_name (E : RegexEngine) (b : SuppressionBase)
    (binary_name : String) : Bool :=
  let step1 :=
    match b.file_name_regex with
    | some regexp => if regex_match E regexp binary_name then some true else none
    | none => some false
  match step1 with
  | none => false
  | some has1 =>
    let step2 :=
      match b.file_name_not_regex with
      | some regexp => if regex_match E regexp binary_name then none else some true
      | none => some has1
    match step2 with
    | none => false
    | some has_regexp => has_regexp

/-- Model of `suppression_base::matches_soname`. -/
def matches_soname (E : RegexEngine) (b : SuppressionBase)
    (soname : String) : Bool :=
  let step1 :=
    match b.soname_regex with
    | some regexp => if regex_match E regexp soname then some true else none
    | none => some false
  match step1 with
  | none => false
  | some has1 =>
    let step2 :=
      match b.soname_not_regex with
      | some regexp => if regex_match E regexp soname then none else some true
      | none => some has1
    match step2 with
    | none => false
    | some has_regexp => has_regexp

/-- Model of `type_suppression::type_kind` (the header is not under src/; the
enumerators are listed by the spec). -/
inductive TypeKind where
  | unknown
  | class_kind
  | struct_kind
  | union_kind
  | enum_kind
  | array_kind
  | typedef_kind
  | builtin_kind
deriving DecidableEq

/-- Model of `type_suppression::reach_kind`. -/
inductive ReachKind where
  | direct
  | pointer
  | reference
  | reference_or_pointer
deriving DecidableEq

/-- An offset of a data-member insertion range: an integer literal (`uint64_t`
value, with `uint64_max` as the "end" sentinel) or a function call
expression; the expression pointer may be null (a malformed expression
accepted by the parser). -/
inductive SupprOffset where
  | integer (value : Nat)
  | fn_call (expr : Option FnCallExpr)
deriving DecidableEq

/-- Model of `type_suppression::offset::create_integer_offset` (the `int`
argument is converted to `uint64_t`, wrapping modulo 2^64; this is how the
literal `-1` becomes the "end" sentinel). -/
def create_integer_offset (value : Int) : SupprOffset :=
  SupprOffset.integer ((value % (2 ^ 64 : Int)).toNat)

/-- Model of `type_suppression::offset_range` (a begin and an end offset). -/
structure OffsetRange where
  begin_off : SupprOffset
  end_off : SupprOffset
deriving DecidableEq

/-- Model of `type_suppression::offset_range::boundary_value_is_end`. -/
def boundary_value_is_end (value : Nat) : Bool :=
  value == uint64_max

/-- The fields of `type_suppression::priv`, together with the base fields. -/
structure TypeSuppression where
  base : SuppressionBase := {}
  type_name_regex : Option Rx := none
  type_name : String := ""
  type_name_not_regex : Option Rx := none
  consider_type_kind : Bool := false
  type_kind : TypeKind := TypeKind.unknown
  consider_reach_kind : Bool := false
  reach_kind : ReachKind := ReachKind.direct
  insertion_ranges : List OffsetRange := []
  source_locations_to_keep : List String := []
  source_location_to_keep_regex : Option Rx := none
  changed_enumerator_names : List String := []

/-- Model of `get_private_types_suppr_spec_label`. -/
def private_types_suppr_spec_label : String :=
  "Artificial private types suppression specification"

/-- Model of `is_private_type_suppr_spec`. -/
def is_private_type_suppr_spec (s : TypeSuppression) : Bool :=
  s.base.label == private_types_suppr_spec_label

/-- Model of `function_suppression::change_kind` as the bit set used by the
code (the header is not under src/; the spec describes a bitset over the
three kinds with `all` as the union). -/
def FUNCTION_SUBTYPE_CHANGE_KIND : Nat := 1
/-- The added-function change-kind bit. -/
def ADDED_FUNCTION_CHANGE_KIND : Nat := 2
/-- The deleted-function change-kind bit. -/
def DELETED_FUNCTION_CHANGE_KIND : Nat := 4
/-- The union of all function change-kind bits. -/
def ALL_CHANGE_KIND : Nat := 7
/-- The empty change-kind bit set. -/
def UNDEFINED_CHANGE_KIND : Nat := 0

/-- Model of `function_suppression::parse_change_kind`. -/
def fn_parse_change_kind (s : String) : Nat :=
  if s = "function-subtype-change" then FUNCTION_SUBTYPE_CHANGE_KIND
  else if s = "added-function" then ADDED_FUNCTION_CHANGE_KIND
  else if s = "deleted-function" then DELETED_FUNCTION_CHANGE_KIND
  else if s = "all" then ALL_CHANGE_KIND
  else UNDEFINED_CHANGE_KIND

/-- Model of `variable_suppression::parse_change_kind` (same bit layout over
the variable change kinds). -/
def var_parse_change_kind (s : String) : Nat :=
  if s = "variable-subtype-change" then 1
  else if s = "added-variable" then 2
  else if s = "deleted-variable" then 4
  else if s = "all" then ALL_CHANGE_KIND
  else UNDEFINED_CHANGE_KIND

/-- The fields of `function_suppression::parameter_spec::priv`. -/
structure ParameterSpec where
  index : Nat
  type_name : String
  type_name_regex : Option Rx
deriving DecidableEq

/-- The fields of `function_suppression::priv`, together with the base
fields. -/
structure FunctionSuppression where
  base : SuppressionBase := {}
  change_kind : Nat := ALL_CHANGE_KIND
  name : String := ""
  name_regex : Option Rx := none
  name_not_regex : Option Rx := none
  return_type_name : String := ""
  return_type_regex : Option Rx := none
  parm_specs : List ParameterSpec := []
  symbol_name : String := ""
  symbol_name_regex : Option Rx := none
  symbol_name_not_regex : Option Rx := none
  symbol_version : String := ""
  symbol_version_regex : Option Rx := none
  allow_other_aliases : Bool := true

/-- The fields of `variable_suppression::priv`, together with the base
fields. -/
structure VariableSuppression where
  base : SuppressionBase := {}
  change_kind : Nat := ALL_CHANGE_KIND
  name : String := ""
  name_regex : Option Rx := none
  name_not_regex : Option Rx := none
  symbol_name : String := ""
  symbol_name_regex : Option Rx := none
  symbol_name_not_regex : Option Rx := none
  symbol_version : String := ""
  symbol_version_regex : Option Rx := none
  type_name : String := ""
  type_name_regex : Option Rx := none

/-- A `file_suppression` only carries the base fields. -/
structure FileSuppression where
  base : SuppressionBase := {}

/-- The variant of rule records held by a rule set (the spec's re-expression
of the `suppression_base` class hierarchy). -/
inductive Suppression where
  | type_suppr (t : TypeSuppression)
  | function_suppr (f : FunctionSuppression)
  | variable_suppr (v : VariableSuppression)
  | file_suppr (f : FileSuppression)

-- </rule model>

-- <file_suppression matcher>

/-- Model of `file_suppression::suppresses_file`: matches the base name of
the path against the file-name regex pair; SONAME regexes are not
consulted. -/
def suppresses_file (E : RegexEngine) (s : FileSuppression)
    (file_path : String) : Bool :=
  if file_path = "" then false
  else
    let fname := base_name file_path
    let step1 :=
      match s.base.file_name_regex with
      | some regexp => if regex_match E regexp fname then some true else none
      | none => some false
    match step1 with
    | none => false
    | some has1 =>
      let step2 :=
        match s.base.file_name_not_regex with
        | some regexp => if regex_match E regexp fname then none else some true
        | none => some has1
      match step2 with
      | none => false
      | some has_regexp => has_regexp

-- </file_suppression matcher>

-- <IR model>

/-- Modelled from the spec: a data member of a class, as consumed by the
engine: name, bit offset, laid-out flag, and the size in bits of its type. -/
structure DataMember where
  name : String
  offset : Nat
  is_laid_out : Bool
  size_in_bits : Nat
deriving DecidableEq

/-- Modelled from the spec: a class type: qualified name, optional source
location (path), struct and declaration-only flags, size, and the ordered
data-member list. -/
structure ClassDecl where
  qualified_name : String
  location : Option String := none
  is_struct : Bool := false
  is_declaration_only : Bool := false
  size_in_bits : Nat := 0
  data_members : List DataMember := []
deriving DecidableEq

/-- Modelled from the spec: an enum type: qualified name, optional source
location, size in bits. -/
structure EnumDecl where
  qualified_name : String
  location : Option String := none
  size_in_bits : Nat := 0
deriving DecidableEq

/-- Modelled from the spec: the type families the matcher distinguishes
(class, union, enum, array, typedef with its underlying type, builtin, and
a catch-all for other `type_base` kinds). -/
inductive TypeInfo where
  | class_type (c : ClassDecl)
  | union_type (qualified_name : String) (location : Option String)
  | enum_type (e : EnumDecl)
  | array_type (qualified_name : String) (location : Option String)
  | typedef_type (qualified_name : String) (location : Option String)
      (underlying : TypeInfo)
  | builtin_type (qualified_name : String) (location : Option String)
  | other_type (qualified_name : String) (location : Option String)

/-- Modelled from the spec: the fully-qualified name of a type. -/
def get_name : TypeInfo → String
  | .class_type c => c.qualified_name
  | .union_type n _ => n
  | .enum_type e => e.qualified_name
  | .array_type n _ => n
  | .typedef_type n _ _ => n
  | .builtin_type n _ => n
  | .other_type n _ => n

/-- Modelled from the spec: the optional source location (path) of a type. -/
def get_location : TypeInfo → Option String
  | .class_type c => c.location
  | .union_type _ l => l
  | .enum_type e => e.location
  | .array_type _ l => l
  | .typedef_type _ l _ => l
  | .builtin_type _ l => l
  | .other_type _ l => l

/-- Modelled from the spec: `is_class_type`. -/
def is_class_type : TypeInfo → Option ClassDecl
  | .class_type c => some c
  | _ => none

/-- Modelled from the spec: `is_union_type`. -/
def is_union_type : TypeInfo → Bool
  | .union_type _ _ => true
  | _ => false

/-- Modelled from the spec: `is_enum_type`. -/
def is_enum_type : TypeInfo → Bool
  | .enum_type _ => true
  | _ => false

/-- Modelled from the spec: `is_array_type`. -/
def is_array_type : TypeInfo → Bool
  | .array_type _ _ => true
  | _ => false

/-- Modelled from the spec: `is_typedef`. -/
def is_typedef : TypeInfo → Bool
  | .typedef_type _ _ _ => true
  | _ => false

/-- Modelled from the spec: `is_type_decl` (a builtin/basic type). -/
def is_type_decl : TypeInfo → Bool
  | .builtin_type _ _ => true
  | _ => false

/-- Modelled from the spec: the matcher "peels one level of typedef on each
side and retries once". -/
def peel_typedef_type : TypeInfo → TypeInfo
  | .typedef_type _ _ u => u
  | t => t

/-- Modelled from the spec: an ELF symbol: name, version, function flag, and
the names of the non-main symbols of its alias chain, in chain order (the
walk `get_next_alias()` until `is_main_symbol()` visits exactly these). -/
structure ElfSymbol where
  name : String
  version : String := ""
  is_function : Bool := true
  alias_names : List String := []
deriving DecidableEq

/-- Modelled from the spec: `elf_symbol::has_aliases`. -/
def has_aliases (sym : ElfSymbol) : Bool :=
  !sym.alias_names.isEmpty

/-- Modelled from the spec: `elf_symbol::get_alias_from_name` finds a symbol
of the alias chain carrying the given name. -/
def get_alias_from_name (sym : ElfSymbol) (n : String) : Bool :=
  n == sym.name || sym.alias_names.contains n

/-- Modelled from the spec: a function declaration: qualified name, optional
ELF symbol, optional return type (its qualified name; `none` models a null
return type), the qualified type names of the parameters indexed from the
first non-implicit one, and, for methods, the enclosing class. -/
structure FunctionDecl where
  qualified_name : String
  symbol : Option ElfSymbol := none
  return_type_name : Option String := none
  parm_type_names : List String := []
  enclosing_class : Option ClassDecl := none

-- </IR model>

-- <diff model>

/-- Modelled from the spec: the diff-graph node variants the matcher
discriminates.  `null_diff` stands for a null diff pointer. -/
inductive DiffNode where
  | null_diff
  | class_diff (first second : ClassDecl)
      (deleted_data_members inserted_data_members : List DataMember)
  | enum_diff (first second : EnumDecl)
      (deleted_enumerators changed_enumerators : List String)
  | typedef_diff (first second : TypeInfo) (underlying : DiffNode)
  | qualified_diff (first second : TypeInfo) (underlying : DiffNode)
  | pointer_diff (first second : TypeInfo) (underlying : DiffNode)
  | reference_diff (first second : TypeInfo) (underlying : DiffNode)
  | basic_type_diff (first second : TypeInfo)
  | function_decl_diff (first second : FunctionDecl)
      (has_virtual_mem_fn_change : Bool)
  | distinct_diff
  | other_diff

/-- Modelled from the spec: whether a node is a `type_diff_base`. -/
def is_type_diff : DiffNode → Bool
  | .class_diff _ _ _ _ => true
  | .enum_diff _ _ _ _ => true
  | .typedef_diff _ _ _ => true
  | .qualified_diff _ _ _ => true
  | .pointer_diff _ _ _ => true
  | .reference_diff _ _ _ => true
  | .basic_type_diff _ _ => true
  | _ => false

/-- Modelled from the spec: the first subject of a type-diff node, as a
type. -/
def first_subject : DiffNode → Option TypeInfo
  | .class_diff f _ _ _ => some (.class_type f)
  | .enum_diff f _ _ _ => some (.enum_type f)
  | .typedef_diff f _ _ => some f
  | .qualified_diff f _ _ => some f
  | .pointer_diff f _ _ => some f
  | .reference_diff f _ _ => some f
  | .basic_type_diff f _ => some f
  | _ => none

/-- Modelled from the spec: the second subject of a type-diff node, as a
type. -/
def second_subject : DiffNode → Option TypeInfo
  | .class_diff _ s _ _ => some (.class_type s)
  | .enum_diff _ s _ _ => some (.enum_type s)
  | .typedef_diff _ s _ => some s
  | .qualified_diff _ s _ => some s
  | .pointer_diff _ s _ => some s
  | .reference_diff _ s _ => some s
  | .basic_type_diff _ s => some s
  | _ => none

/-- Modelled from the spec: `peel_qualified_diff` peels the outermost
qualified-type diffs. -/
def peel_qualified_diff : DiffNode → DiffNode
  | .qualified_diff _ _ u => peel_qualified_diff u
  | d => d

/-- Modelled from the spec: `get_typedef_diff_underlying_type_diff` returns
the underlying diff of a typedef diff, or null. -/
def get_typedef_diff_underlying_type_diff : DiffNode → DiffNode
  | .typedef_diff _ _ u => u
  | _ => .null_diff

/-- Modelled from the spec: the ambient diff context, carrying the two
corpora's file paths and SONAMEs. -/
structure DiffContext where
  first_corpus_path : String := ""
  second_corpus_path : String := ""
  first_corpus_soname : String := ""
  second_corpus_soname : String := ""

/-- Model of `names_of_binaries_match`. -/
def names_of_binaries_match (E : RegexEngine) (b : SuppressionBase)
    (ctxt : DiffContext) : Bool :=
  if !has_file_name_related_property b then false
  else if !matches_binary_name E b ctxt.first_corpus_path
          && !matches_binary_name E b ctxt.second_corpus_path then false
  else true

/-- Model of `sonames_of_binaries_match`. -/
def sonames_of_binaries_match (E : RegexEngine) (b : SuppressionBase)
    (ctxt : DiffContext) : Bool :=
  if !has_soname_related_property b then false
  else if !matches_soname E b ctxt.first_corpus_soname
          && !matches_soname E b ctxt.second_corpus_soname then false
  else true

-- </diff model>

-- <type_suppression matcher>

/-- Model of `suppression_matches_type_name(const type_suppression&, const
string&)`: when a non-empty exact `type_name` is set it alone decides; the
regex pair is only consulted otherwise. -/
def suppression_matches_type_name (E : RegexEngine) (s : TypeSuppression)
    (type_name : String) : Bool :=
  if s.type_name ≠ "" || s.type_name_regex.isSome
     || s.type_name_not_regex.isSome then
    if s.type_name ≠ "" then
      if s.type_name ≠ type_name then false else true
    else
      let ok1 :=
        match s.type_name_regex with
        | some r => regex_match E r type_name
        | none => true
      if !ok1 then false
      else
        match s.type_name_not_regex with
        | some r => !regex_match E r type_name
        | none => true
  else true

/-- Model of `suppression_matches_type_location(const type_suppression&,
const location&)` (the location is a path, or `none` for an invalid
location). -/
def suppression_matches_type_location_loc (E : RegexEngine)
    (s : TypeSuppression) (loc : Option String) : Bool :=
  match loc with
  | some loc_path =>
    let keep :=
      match s.source_location_to_keep_regex with
      | some regexp => regex_match E regexp loc_path
      | none => false
    if keep then false
    else if s.source_locations_to_keep.contains (base_name loc_path) then false
    else if s.source_locations_to_keep.contains loc_path then false
    else true
  | none =>
    if !s.source_locations_to_keep.isEmpty
       || s.source_location_to_keep_regex.isSome then false
    else true

/-- Model of `suppression_matches_type_location(const type_suppression&,
const type_base_sptr&)`: dispatches on the type's location; a location-less
class under an artificial private-type rule is matched (the `ABG_ASSERT`
that a declaration-only class has no definition is guaranteed by the IR
model). -/
def suppression_matches_type_location_type (E : RegexEngine)
    (s : TypeSuppression) (type : TypeInfo) : Bool :=
  match get_location type with
  | some loc => suppression_matches_type_location_loc E s (some loc)
  | none =>
    let private_hit :=
      if s.base.is_artificial then
        match is_class_type type with
        | some _cl => s.base.label == private_types_suppr_spec_label
        | none => false
      else false
    if private_hit then true
    else if !s.source_locations_to_keep.isEmpty
            || s.source_location_to_keep_regex.isSome then false
    else true

/-- Model of `suppression_matches_type_no_name`: the kind check followed by
the location check. -/
def suppression_matches_type_no_name (E : RegexEngine) (s : TypeSuppression)
    (type : TypeInfo) : Bool :=
  let kind_ok :=
    if s.consider_type_kind then
      match s.type_kind with
      | TypeKind.unknown => (is_class_type type).isSome
      | TypeKind.class_kind => (is_class_type type).isSome
      | TypeKind.struct_kind =>
        match is_class_type type with
        | some klass => klass.is_struct
        | none => false
      | TypeKind.union_kind => is_union_type type
      | TypeKind.enum_kind => is_enum_type type
      | TypeKind.array_kind => is_array_type type
      | TypeKind.typedef_kind => is_typedef type
      | TypeKind.builtin_kind => is_type_decl type
    else true
  if !kind_ok then false
  else if !suppression_matches_type_location_type E s type then false
  else true

/-- Model of `type_suppression::suppresses_type(const type_base_sptr&)`. -/
def type_suppresses_type (E : RegexEngine) (s : TypeSuppression)
    (type : TypeInfo) : Bool :=
  if !suppression_matches_type_no_name E s type then false
  else if !suppression_matches_type_name E s (get_name type) then false
  else true

/-- Model of `type_suppression::suppresses_type(const type_base_sptr&, const
diff_context_sptr&)`: binary-scope gating, then the context-free check. -/
def type_suppresses_type_ctxt (E : RegexEngine) (s : TypeSuppression)
    (type : TypeInfo) (ctxt : Option DiffContext) : Bool :=
  match ctxt with
  | some c =>
    if !names_of_binaries_match E s.base c
       && has_file_name_related_property s.base then false
    else if !sonames_of_binaries_match E s.base c
            && has_soname_related_property s.base then false
    else type_suppresses_type E s type
  | none => type_suppresses_type E s type

-- </type_suppression matcher>

-- <offset expression evaluator>

/-- Result of evaluating an offset against a class: `crashed` models an
abort (null dereference), `failed` an evaluation that reports failure,
`ok v` a successful evaluation. -/
inductive EvalResult where
  | crashed
  | failed
  | ok (value : Nat)
deriving DecidableEq

/-- Helper: the offset of the first laid-out member of a list. -/
def first_laid_out_offset : List DataMember → Option Nat
  | [] => none
  | m :: rest => if m.is_laid_out then some m.offset else first_laid_out_offset rest

/-- Helper: scans for `dm` and then for the next laid-out member. -/
def next_laid_out_offset_after (dm : DataMember) : List DataMember → Option Nat
  | [] => none
  | m :: rest =>
    if m = dm then first_laid_out_offset rest else next_laid_out_offset_after dm rest

/-- Modelled from the spec: `get_next_data_member_offset` — "if `m` exists
and has a next laid-out member, return the next member's offset". -/
def get_next_data_member_offset (cls : ClassDecl) (dm : DataMember) :
    Option Nat :=
  next_laid_out_offset_after dm cls.data_members

/-- The member scan of `fn_call_expr_offset::eval` (lines 1592-1617): first
laid-out member with the given name; for `offset_of` its offset, for
`offset_after` the next laid-out member's offset or offset plus type size.
The `abort()` of the source is unreachable: the caller guarantees the
function name is `offset_of` or `offset_after`. -/
def fn_call_eval_scan (fname member_name : String) (cls : ClassDecl) :
    List DataMember → EvalResult
  | [] => .failed
  | m :: rest =>
    if !m.is_laid_out then fn_call_eval_scan fname member_name cls rest
    else if m.name = member_name then
      if fname = "offset_of" then .ok m.offset
      else
        match get_next_data_member_offset cls m with
        | some v => .ok v
        | none => .ok (m.offset + m.size_in_bits)
    else fn_call_eval_scan fname member_name cls rest

/-- Model of `type_suppression::offset::...::eval` for both offset kinds:
an integer offset evaluates to its stored value; a function-call offset
evaluates per `fn_call_expr_offset::eval` (a null expression pointer
dereferences null: `crashed`). -/
def offset_eval : SupprOffset → ClassDecl → EvalResult
  | .integer v, _ => .ok v
  | .fn_call none, _ => .crashed
  | .fn_call (some e), cls =>
    if e.name = "offset_of" || e.name = "offset_after" then
      match e.arguments with
      | [member_name] => fn_call_eval_scan e.name member_name cls cls.data_members
      | _ => .failed
    else .failed

-- </offset expression evaluator>

-- <type_suppression::suppresses_diff>

/-- Modelled from the spec: `get_last_data_member` — the last laid-out data
member of a class, if any (the source dereferences the result, so `none`
leads to a crash at the call site). -/
def get_last_data_member (cls : ClassDecl) : Option DataMember :=
  (cls.data_members.filter (fun m => m.is_laid_out)).getLast?

/-- The loop over a rule's insertion ranges for one inserted member
(lines 986-1033 of `type_suppression::suppresses_diff`): an offset
evaluation failure breaks out of the loop with the current `matched` value;
a range whose bounds are both the "end" sentinel matches an offset beyond
the last laid-out member of the first type; an out-of-order range is
skipped; otherwise the range matches offsets between its bounds. -/
def member_matches_ranges (first_type : ClassDecl) (dm_offset : Nat) :
    List OffsetRange → Bool → Option Bool
  | [], matched => some matched
  | r :: rest, matched =>
    match offset_eval r.begin_off first_type with
    | .crashed => none
    | .failed => some matched
    | .ok range_begin =>
      match offset_eval r.end_off first_type with
      | .crashed => none
      | .failed => some matched
      | .ok range_end =>
        if boundary_value_is_end range_begin
           && boundary_value_is_end range_end then
          match get_last_data_member first_type with
          | none => none
          | some last =>
            if dm_offset > last.offset then
              member_matches_ranges first_type dm_offset rest true
            else if range_begin > range_end then
              member_matches_ranges first_type dm_offset rest matched
            else if dm_offset < range_begin || dm_offset > range_end then
              member_matches_ranges first_type dm_offset rest matched
            else
              member_matches_ranges first_type dm_offset rest true
        else if range_begin > range_end then
          member_matches_ranges first_type dm_offset rest matched
        else if dm_offset < range_begin || dm_offset > range_end then
          member_matches_ranges first_type dm_offset rest matched
        else
          member_matches_ranges first_type dm_offset rest true

/-- The loop over the inserted data members (lines 977-1036): every inserted
member must be admitted by some insertion range. -/
def inserted_members_match (s : TypeSuppression) (first_type : ClassDecl) :
    List DataMember → Option Bool
  | [] => some true
  | m :: rest =>
    match member_matches_ranges first_type m.offset s.insertion_ranges false with
    | none => none
    | some matched =>
      if matched then inserted_members_match s first_type rest else some false

/-- The class-diff and enum-diff checks at the tail of
`type_suppression::suppresses_diff` (lines 956-1076), applied to the
(possibly shaped and typedef-peeled) node `d`. -/
def type_diff_class_enum_checks (s : TypeSuppression) (d : DiffNode) :
    Option Bool :=
  let class_part : Option Bool :=
    match d with
    | .class_diff f s2 deleted inserted =>
      if s.insertion_ranges.isEmpty then some true
      else if deleted.isEmpty && f.size_in_bits ≤ s2.size_in_bits then
        inserted_members_match s f inserted
      else some false
    | _ => some true
  match class_part with
  | none => none
  | some false => some false
  | some true =>
    match d with
    | .enum_diff fe se deletedE changedE =>
      if deletedE.isEmpty && fe.size_in_bits == se.size_in_bits
         && !changedE.isEmpty then
        if changedE.all (fun n => s.changed_enumerator_names.contains n)
        then some true else some false
      else some true
    | _ => some true

/-- Outcome of the reach-kind shaping at the head of
`type_suppression::suppresses_diff` (lines 883-928). -/
inductive ShapeResult where
  | ret_false
  | aborted
  | continue_with (d : DiffNode)

/-- The reach-kind shaping: for `pointer` and `reference` a missing
underlying type diff is a graceful `return false`; for
`reference-or-pointer` the source instead asserts (`ABG_ASSERT(d)`), which
is modelled as `aborted`. -/
def shape_by_reach_kind (s : TypeSuppression) (diff : DiffNode) : ShapeResult :=
  if s.consider_reach_kind then
    match s.reach_kind with
    | ReachKind.pointer =>
      match diff with
      | .pointer_diff _ _ u =>
        if is_type_diff u then
          let p := peel_qualified_diff u
          .continue_with (if is_type_diff p then p else .null_diff)
        else .ret_false
      | _ => .ret_false
    | ReachKind.reference =>
      match diff with
      | .reference_diff _ _ u =>
        if is_type_diff u then
          let p := peel_qualified_diff u
          .continue_with (if is_type_diff p then p else .null_diff)
        else .ret_false
      | _ => .ret_false
    | ReachKind.reference_or_pointer =>
      match diff with
      | .pointer_diff _ _ u =>
        if is_type_diff u then
          let p := peel_qualified_diff u
          .continue_with (if is_type_diff p then p else .null_diff)
        else .aborted
      | .reference_diff _ _ u =>
        if is_type_diff u then
          let p := peel_qualified_diff u
          .continue_with (if is_type_diff p then p else .null_diff)
        else .aborted
      | _ => .ret_false
    | ReachKind.direct => .continue_with diff
  else .continue_with diff

/-- Model of `type_suppression::suppresses_diff` (lines 847-1077): `none`
models an abort (failed `ABG_ASSERT` or null dereference).  Non-type diffs
are only matched through the virtual-member-function fallback; then the
node is shaped by the reach kind, the name/kind/location predicates are
evaluated on both subjects (retrying once after peeling typedefs), and the
class-diff insertion and enum-diff enumerator checks run on the result. -/
def type_suppresses_diff (E : RegexEngine) (s : TypeSuppression)
    (diff : DiffNode) (ctxt : Option DiffContext) : Option Bool :=
  if !is_type_diff diff then
    match diff with
    | .function_decl_diff f _ hv =>
      if hv then
        match f.enclosing_class with
        | none => none
        | some fc =>
          if type_suppresses_type_ctxt E s (.class_type fc) ctxt then some true
          else some false
      else some false
    | _ => some false
  else
    match shape_by_reach_kind s diff with
    | .ret_false => some false
    | .aborted => none
    | .continue_with d =>
      match first_subject d, second_subject d with
      | some ft, some st =>
        if type_suppresses_type_ctxt E s ft ctxt
           || type_suppresses_type_ctxt E s st ctxt then
          type_diff_class_enum_checks s d
        else
          let ft2 := if is_private_type_suppr_spec s then ft
                     else peel_typedef_type ft
          let st2 := if is_private_type_suppr_spec s then st
                     else peel_typedef_type st
          if type_suppresses_type_ctxt E s ft2 ctxt
             || type_suppresses_type_ctxt E s st2 ctxt then
            let u := get_typedef_diff_underlying_type_diff d
            type_diff_class_enum_checks s
              (if is_type_diff u then u else .null_diff)
          else some false
      | _, _ => none

-- </type_suppression::suppresses_diff>

-- <function_suppression matcher>

/-- The alias walk of the exact-name and exact-symbol-name blocks of
`suppresses_function`: every alias name must equal the main symbol's
name. -/
def aliases_all_equal (symbol_name : String) : List String → Bool
  | [] => true
  | a :: rest =>
    if a ≠ symbol_name then false else aliases_all_equal symbol_name rest

/-- The alias walk of the `name_regexp` block of `suppresses_function`:
every alias name must match the regex. -/
def aliases_all_match (E : RegexEngine) (r : Rx) : List String → Bool
  | [] => true
  | a :: rest =>
    if !regex_match E r a then false else aliases_all_match E r rest

/-- The alias walk of the `name_not_regexp` block of `suppresses_function`
(lines 2628-2635): the source matches the aliases against `name_regex` —
not `name_not_regex` — and dereferences it even when it is null (modelled
by `none`). -/
def aliases_none_match_via_name_regex (E : RegexEngine)
    (name_regex : Option Rx) : List String → Option Bool
  | [] => some true
  | a :: rest =>
    match name_regex with
    | none => none
    | some r =>
      if regex_match E r a then some false
      else aliases_none_match_via_name_regex E name_regex rest

/-- The alias walk of the symbol-name-regex block of `suppresses_function`
(lines 2706-2720): each alias must match `symbol_name_regex` (when set) and
must not match `symbol_name_not_regex` (when set). -/
def sym_aliases_check (E : RegexEngine) (rx nrx : Option Rx) :
    List String → Bool
  | [] => true
  | a :: rest =>
    let fail1 :=
      match rx with
      | some r => !regex_match E r a
      | none => false
    if fail1 then false
    else
      let fail2 :=
        match nrx with
        | some r => regex_match E r a
        | none => false
      if fail2 then false
      else sym_aliases_check E rx nrx rest

/-- The parameter-spec loop of `suppresses_function` (lines 2747-2778);
the parameter is resolved by index from the first non-implicit parameter
(`get_parm_at_index_from_first_non_implicit_parm`, modelled from the spec
as indexing the non-implicit parameter type-name list). -/
def parm_specs_match (E : RegexEngine) (fn : FunctionDecl) :
    List ParameterSpec → Bool
  | [] => true
  | p :: rest =>
    match fn.parm_type_names.get? p.index with
    | none => false
    | some qn =>
      if p.type_name ≠ "" then
        if p.type_name ≠ qn then false else parm_specs_match E fn rest
      else
        match p.type_name_regex with
        | some r =>
          if !regex_match E r qn then false else parm_specs_match E fn rest
        | none => parm_specs_match E fn rest

/-- Model of `function_suppression::suppresses_function` (lines 2519-2782):
change-kind gate, binary-scope gate, then the name, return-type, symbol
name, symbol version and parameter predicates; under `allow_other_aliases`
the name and symbol-name predicates must also hold of every alias.  `none`
models an abort (null-regex dereference in the `name_not_regexp` alias
walk). -/
def suppresses_function (E : RegexEngine) (s : FunctionSuppression)
    (fn : FunctionDecl) (k : Nat) (ctxt : Option DiffContext) : Option Bool :=
  if s.change_kind &&& k = 0 then some false
  else
    let binary_gate_ok :=
      match ctxt with
      | some c =>
        if !names_of_binaries_match E s.base c
           && has_file_name_related_property s.base then false
        else if !sonames_of_binaries_match E s.base c
                && has_soname_related_property s.base then false
        else true
      | none => true
    if !binary_gate_ok then some false
    else
      let fname := fn.qualified_name
      let name_block : Option Bool :=
        if s.name ≠ "" then
          if s.name ≠ fname then some false
          else
            match fn.symbol with
            | some sym =>
              if s.allow_other_aliases && get_alias_from_name sym fname then
                if has_aliases sym && get_alias_from_name sym fname then
                  some (aliases_all_equal sym.name sym.alias_names)
                else some true
              else some true
            | none => some true
        else some true
      match name_block with
      | none => none
      | some false => some false
      | some true =>
      let name_rx_block : Option Bool :=
        match s.name_regex with
        | some r =>
          if !regex_match E r fname then some false
          else
            match fn.symbol with
            | some sym =>
              if s.allow_other_aliases && get_alias_from_name sym fname then
                if has_aliases sym then
                  some (aliases_all_match E r sym.alias_names)
                else some true
              else some true
            | none => some true
        | none => some true
      match name_rx_block with
      | none => none
      | some false => some false
      | some true =>
      let name_nrx_block : Option Bool :=
        match s.name_not_regex with
        | some r =>
          if regex_match E r fname then some false
          else
            match fn.symbol with
            | some sym =>
              if s.allow_other_aliases && get_alias_from_name sym fname then
                if has_aliases sym then
                  aliases_none_match_via_name_regex E s.name_regex
                    sym.alias_names
                else some true
              else some true
            | none => some true
        | none => some true
      match name_nrx_block with
      | none => none
      | some false => some false
      | some true =>
      let fn_return_type_name := fn.return_type_name.getD ""
      let rt_ok :=
        if s.return_type_name ≠ "" then
          fn_return_type_name == s.return_type_name
        else
          match s.return_type_regex with
          | some r => regex_match E r fn_return_type_name
          | none => true
      if !rt_ok then some false
      else
      let sym_block : Option Bool :=
        match fn.symbol with
        | some sym =>
          if s.symbol_name ≠ "" then
            if sym.name ≠ s.symbol_name then some false
            else if s.allow_other_aliases then
              if has_aliases sym then
                some (aliases_all_equal sym.name sym.alias_names)
              else some true
            else some true
          else
            let ok1 :=
              match s.symbol_name_regex with
              | some r => regex_match E r sym.name
              | none => true
            if !ok1 then some false
            else
              let ok2 :=
                match s.symbol_name_not_regex with
                | some r => !regex_match E r sym.name
                | none => true
              if !ok2 then some false
              else if s.allow_other_aliases then
                if has_aliases sym then
                  some (sym_aliases_check E s.symbol_name_regex
                    s.symbol_name_not_regex sym.alias_names)
                else some true
              else some true
        | none => some true
      match sym_block with
      | none => none
      | some false => some false
      | some true =>
      let ver_ok :=
        match fn.symbol with
        | some sym =>
          if s.symbol_version ≠ "" then sym.version == s.symbol_version
          else
            match s.symbol_version_regex with
            | some r => regex_match E r sym.version
            | none => true
        | none => true
      if !ver_ok then some false
      else if !parm_specs_match E fn s.parm_specs then some false
      else some true

/-- Model of `function_suppression::suppresses_function_symbol`
(lines 2817-2885): the symbol-only path for added/deleted function symbols.
Only the symbol's own name and version are consulted — the alias chain is
not walked.  `none` models the `ABG_ASSERT` that the change kind is
added-function or deleted-function. -/
def suppresses_function_symbol (E : RegexEngine) (s : FunctionSuppression)
    (sym : Option ElfSymbol) (k : Nat) (ctxt : Option DiffContext) :
    Option Bool :=
  match sym with
  | none => some false
  | some sy =>
    if s.change_kind &&& k = 0 then some false
    else if !sy.is_function then some false
    else if k &&& ADDED_FUNCTION_CHANGE_KIND = 0
            && k &&& DELETED_FUNCTION_CHANGE_KIND = 0 then none
    else
      let binary_gate_ok :=
        match ctxt with
        | some c =>
          if !names_of_binaries_match E s.base c
             && has_file_name_related_property s.base then false
          else if !sonames_of_binaries_match E s.base c
                  && has_soname_related_property s.base then false
          else true
        | none => true
      if !binary_gate_ok then some false
      else
        let no_symbol_name :=
          s.symbol_name = "" && s.symbol_name_regex.isNone
        let name_ok :=
          if s.symbol_name ≠ "" then sy.name == s.symbol_name
          else
            match s.symbol_name_regex with
            | some r => regex_match E r sy.name
            | none => true
        if !name_ok then some false
        else
          let no_symbol_version :=
            s.symbol_version = "" && s.symbol_version_regex.isNone
          let version_ok :=
            if s.symbol_version ≠ "" then sy.version == s.symbol_version
            else
              match s.symbol_version_regex with
              | some r => regex_match E r sy.version
              | none => true
          if !version_ok then some false
          else if no_symbol_name && no_symbol_version then some false
          else some true

-- </function_suppression matcher>

-- <rule parser>

/-- The recurring parser idiom `if (prop = section.find_property(name))
{ if (read(prop, v)) result.set(v); }`: a failed read silently leaves the
rule unchanged. -/
def with_prop {α β : Type} (sec : IniSection) (pname : String)
    (reader : Property → Option α) (setter : α → β → β) (r : β) : β :=
  match find_property sec pname with
  | some p =>
    match reader p with
    | some v => setter v r
    | none => r
  | none => r

/-- The `drop_artifact`-else-`drop` lookup shared by the readers. -/
def with_drop_prop {β : Type} (sec : IniSection) (setter : Bool → β → β)
    (r : β) : β :=
  let drop_prop :=
    match find_property sec "drop_artifact" with
    | some p => some p
    | none => find_property sec "drop"
  match drop_prop with
  | some p =>
    match read_bool_prop p with
    | some b => setter b r
    | none => r
  | none => r

/-- Model of `read_type_kind_string`. -/
def read_type_kind_string (input : String) : TypeKind :=
  if input = "class" then TypeKind.class_kind
  else if input = "struct" then TypeKind.struct_kind
  else if input = "union" then TypeKind.union_kind
  else if input = "enum" then TypeKind.enum_kind
  else if input = "array" then TypeKind.array_kind
  else if input = "typedef" then TypeKind.typedef_kind
  else if input = "builtin" then TypeKind.builtin_kind
  else TypeKind.unknown

/-- Model of `read_suppression_reach_kind`. -/
def read_suppression_reach_kind (input : String) : ReachKind :=
  if input = "direct" then ReachKind.direct
  else if input = "pointer" then ReachKind.pointer
  else if input = "reference" then ReachKind.reference
  else if input = "reference-or-pointer" then ReachKind.reference_or_pointer
  else ReachKind.direct

/-- The offset-boundary parse used for the `has_data_member*` properties:
`end` becomes the integer literal -1 (the sentinel), a digit-led string goes
through `atoi`, and everything else is wrapped as a function-call offset
(`create_fn_call_expr_offset` never returns null, so the source's trailing
`return false` branch is dead: a malformed expression yields an offset
holding a null expression). -/
def parse_offset_string (str : String) : SupprOffset :=
  if str = "end" then create_integer_offset (-1)
  else if (str.data.head?.map Char.isDigit).getD false then
    create_integer_offset (atoi str)
  else SupprOffset.fn_call (read_function_call_expr str)

/-- The `source_location_not_in` collection (lines 1728-1748): a simple
property contributes one path, a list property its items, any other shape
nothing. -/
def collect_srcloc_not_in (sec : IniSection) : List String :=
  match find_property sec "source_location_not_in" with
  | none => []
  | some p =>
    match p.value with
    | PropertyValue.scalar s => [s]
    | PropertyValue.list xs => xs
    | PropertyValue.tuple _ => []

/-- The `changed_enumerators` collection (lines 1907-1920): a list property
contributes its items, a simple property one name. -/
def collect_changed_enumerators (sec : IniSection) : List String :=
  match find_property sec "changed_enumerators" with
  | none => []
  | some p =>
    match p.value with
    | PropertyValue.list xs => xs
    | PropertyValue.scalar s => [s]
    | PropertyValue.tuple _ => []

/-- The `has_data_member_inserted_at` support (lines 1751-1774): a simple
property yields the range `[parsed, end]`. -/
def inserted_at_ranges (sec : IniSection) : List OffsetRange :=
  match is_simple_property (find_property sec "has_data_member_inserted_at") with
  | some ins_point =>
    [⟨parse_offset_string ins_point, create_integer_offset (-1)⟩]
  | none => []

/-- The `has_data_member_inserted_between` support (lines 1776-1834): a
tuple property must hold exactly one two-element list; any other tuple
shape discards the whole section (`none`). -/
def inserted_between_ranges (sec : IniSection) : Option (List OffsetRange) :=
  match is_tuple_property
      (find_property sec "has_data_member_inserted_between") with
  | none => some []
  | some items =>
    match items with
    | [PropertyValue.list [b, e]] =>
      some [⟨parse_offset_string b, parse_offset_string e⟩]
    | _ => none

/-- The per-item parse of `has_data_members_inserted_between`
(lines 1848-1895): each item must be a tuple holding one two-element
list. -/
def parse_ranges_list : List PropertyValue → Option (List OffsetRange)
  | [] => some []
  | PropertyValue.tuple [PropertyValue.list [b, e]] :: rest =>
    (parse_ranges_list rest).map
      (fun rs => ⟨parse_offset_string b, parse_offset_string e⟩ :: rs)
  | _ => none

/-- The `has_data_members_inserted_between` support (lines 1836-1896). -/
def members_between_ranges (sec : IniSection) : Option (List OffsetRange) :=
  match is_tuple_property
      (find_property sec "has_data_members_inserted_between") with
  | none => some []
  | some items => parse_ranges_list items

/-- The sufficient properties of a `[suppress_type]` section. -/
def type_sufficient_props : List String :=
  ["file_name_regexp", "file_name_not_regexp", "soname_regexp",
   "soname_not_regexp", "name", "name_regexp", "name_not_regexp",
   "type_kind", "source_location_not_in", "source_location_not_regexp"]

/-- The post-population clearing of the drop flag of a type rule
(lines 2025-2033): `drop` is ignored unless a name or source-location
predicate is present. -/
def type_clear_invalid_drop (r : TypeSuppression) : TypeSuppression :=
  if r.base.drops_artifact && r.type_name_regex.isNone && r.type_name = ""
     && r.source_location_to_keep_regex.isNone
     && r.source_locations_to_keep.isEmpty then
    {r with base := {r.base with drops_artifact := false}}
  else r

/-- The `changed_enumerators` post-step of a type rule (lines 2035-2037):
only honoured when `type_kind = enum`. -/
def type_set_changed_enumerators (names : List String)
    (r : TypeSuppression) : TypeSuppression :=
  if r.type_kind = TypeKind.enum_kind && !names.isEmpty then
    {r with changed_enumerator_names := names}
  else r

/-- Model of `read_type_suppression` (lines 1707-2041).  The result is
`some none` when the section is rejected and `some (some r)` on success
(the reader itself cannot abort). -/
def read_type_suppression (E : RegexEngine) (sec : IniSection) :
    Option (Option TypeSuppression) :=
  if !check_sufficient_props type_sufficient_props sec then some none
  else
    let srcloc_not_in := collect_srcloc_not_in sec
    match inserted_between_ranges sec with
    | none => some none
    | some r_btw =>
      match members_between_ranges sec with
      | none => some none
      | some r_btws =>
        let insert_ranges := inserted_at_ranges sec ++ r_btw ++ r_btws
        let changed_enumerator_names := collect_changed_enumerators sec
        let r : TypeSuppression := {}
        let r := with_prop sec "label" read_string_prop
          (fun v r => {r with base := {r.base with label := v}}) r
        let r := with_prop sec "name_regexp" (read_regex_prop E)
          (fun v r => {r with type_name_regex := some v}) r
        let r := with_prop sec "name" read_string_prop
          (fun v r => {r with type_name := v}) r
        let r := with_prop sec "type_kind" read_string_prop
          (fun v r => {r with consider_type_kind := true,
                              type_kind := read_type_kind_string v}) r
        let r := with_prop sec "accessed_through" read_string_prop
          (fun v r => {r with consider_reach_kind := true,
                              reach_kind := read_suppression_reach_kind v}) r
        let r := if !insert_ranges.isEmpty
                 then {r with insertion_ranges := insert_ranges} else r
        let r := with_prop sec "name_not_regexp" (read_regex_prop E)
          (fun v r => {r with type_name_not_regex := some v}) r
        let r := with_prop sec "file_name_regexp" (read_regex_prop E)
          (fun v r => {r with base := {r.base with file_name_regex := some v}}) r
        let r := with_prop sec "file_name_not_regexp" (read_regex_prop E)
          (fun v r =>
            {r with base := {r.base with file_name_not_regex := some v}}) r
        let r := with_prop sec "soname_regexp" (read_regex_prop E)
          (fun v r => {r with base := {r.base with soname_regex := some v}}) r
        let r := with_prop sec "soname_not_regexp" (read_regex_prop E)
          (fun v r =>
            {r with base := {r.base with soname_not_regex := some v}}) r
        let r := if !srcloc_not_in.isEmpty
                 then {r with source_locations_to_keep := srcloc_not_in} else r
        let r := with_prop sec "source_location_not_regexp" (read_regex_prop E)
          (fun v r => {r with source_location_to_keep_regex := some v}) r
        let r := with_drop_prop sec
          (fun v r => {r with base := {r.base with drops_artifact := v}}) r
        let r := type_clear_invalid_drop r
        let r := type_set_changed_enumerators changed_enumerator_names r
        some (some r)

-- </rule parser: type>

-- <rule parser: function, variable, file>

/-- The type-name collection of `read_parameter_spec_from_string`
(lines 3160-3168): all non-whitespace characters, stopping at a `/`
delimiter when parsing a regex. -/
def collect_type_name_chars (is_rx : Bool) :
    List Char → List Char → List Char × List Char
  | [], acc => (acc.reverse, [])
  | c :: cs, acc =>
    if c.isWhitespace then collect_type_name_chars is_rx cs acc
    else if is_rx && c = '/' then (acc.reverse, c :: cs)
    else collect_type_name_chars is_rx cs (c :: acc)

/-- Model of `read_parameter_spec_from_string` (lines 3125-3188): grammar
`['index] [/type-regex/ | type-name]`; the result is null when neither an
index nor a type name was found. -/
def read_parameter_spec_from_string (E : RegexEngine) (str : String) :
    Option ParameterSpec :=
  let cs0 := str.data.dropWhile Char.isWhitespace
  let index_str : List Char :=
    if cs0.head? = some (Char.ofNat 39) then
      (cs0.drop 1).takeWhile Char.isDigit
    else []
  let cs1 :=
    if cs0.head? = some (Char.ofNat 39) then
      (cs0.drop 1).dropWhile Char.isDigit
    else cs0
  let cs2 := cs1.dropWhile Char.isWhitespace
  let is_rx := cs2.head? = some '/'
  let cs3 := if is_rx then cs2.drop 1 else cs2
  let type_name : String := ⟨(collect_type_name_chars is_rx cs3 []).1⟩
  if !index_str.isEmpty || type_name ≠ "" then
    let tn := if is_rx then "" else type_name
    let rx := if is_rx then regex_compile E type_name else none
    some ⟨(atoi ⟨index_str⟩).toNat, tn, rx⟩
  else none

/-- The `parameter` property collection of `read_function_suppression`
(lines 3226-3239): every property named `parameter` must be simple (the
source asserts this: a non-simple one aborts, modelled by `none`); specs
that fail to parse are skipped. -/
def collect_parameter_specs (E : RegexEngine) :
    List Property → Option (List ParameterSpec)
  | [] => some []
  | p :: rest =>
    if p.name = "parameter" then
      match p.value with
      | PropertyValue.scalar s =>
        match read_parameter_spec_from_string E s with
        | some spec =>
          (collect_parameter_specs E rest).map (fun ps => spec :: ps)
        | none => collect_parameter_specs E rest
      | _ => none
    else collect_parameter_specs E rest

/-- The sufficient properties of a `[suppress_function]` section. -/
def function_sufficient_props : List String :=
  ["label", "file_name_regexp", "file_name_not_regexp", "soname_regexp",
   "soname_not_regexp", "name", "name_regexp", "name_not_regexp",
   "parameter", "return_type_name", "return_type_regexp", "symbol_name",
   "symbol_name_regexp", "symbol_name_not_regexp", "symbol_version",
   "symbol_version_regexp"]

/-- The post-population clearing of the drop flag of a function rule
(lines 3375-3385). -/
def fn_clear_invalid_drop (r : FunctionSuppression) : FunctionSuppression :=
  if r.base.drops_artifact && r.name = "" && r.name_regex.isNone
     && r.name_not_regex.isNone && r.symbol_name = ""
     && r.symbol_name_regex.isNone && r.symbol_name_not_regex.isNone then
    {r with base := {r.base with drops_artifact := false}}
  else r

set_option maxHeartbeats 1000000 in
/-- Model of `read_function_suppression` (lines 3199-3389); `none` models
the abort on a non-simple `parameter` property. -/
def read_function_suppression (E : RegexEngine) (sec : IniSection) :
    Option (Option FunctionSuppression) :=
  if !check_sufficient_props function_sufficient_props sec then some none
  else
    match collect_parameter_specs E sec.properties with
    | none => none
    | some parms =>
      let r : FunctionSuppression := {}
      let r := with_prop sec "label" read_string_prop
        (fun v r => {r with base := {r.base with label := v}}) r
      let r := with_prop sec "name" read_string_prop
        (fun v r => {r with name := v}) r
      let r := with_prop sec "name_regexp" (read_regex_prop E)
        (fun v r => {r with name_regex := some v}) r
      let r := with_prop sec "return_type_name" read_string_prop
        (fun v r => {r with return_type_name := v}) r
      let r := with_prop sec "return_type_regexp" (read_regex_prop E)
        (fun v r => {r with return_type_regex := some v}) r
      let r := {r with parm_specs := parms}
      let r := with_prop sec "symbol_name" read_string_prop
        (fun v r => {r with symbol_name := v}) r
      let r := with_prop sec "symbol_name_regexp" (read_regex_prop E)
        (fun v r => {r with symbol_name_regex := some v}) r
      let r := with_prop sec "symbol_version" read_string_prop
        (fun v r => {r with symbol_version := v}) r
      let r := with_prop sec "symbol_version_regexp" (read_regex_prop E)
        (fun v r => {r with symbol_version_regex := some v}) r
      let r := with_prop sec "change_kind" read_string_prop
        (fun v r =>
          if v ≠ "" then {r with change_kind := fn_parse_change_kind v}
          else r) r
      let r := with_prop sec "allow_other_aliases" read_bool_prop
        (fun v r => {r with allow_other_aliases := v}) r
      let r := with_prop sec "name_not_regexp" (read_regex_prop E)
        (fun v r => {r with name_not_regex := some v}) r
      let r := with_prop sec "symbol_name_not_regexp" (read_regex_prop E)
        (fun v r => {r with symbol_name_not_regex := some v}) r
      let r := with_prop sec "file_name_regexp" (read_regex_prop E)
        (fun v r => {r with base := {r.base with file_name_regex := some v}}) r
      let r := with_prop sec "file_name_not_regexp" (read_regex_prop E)
        (fun v r =>
          {r with base := {r.base with file_name_not_regex := some v}}) r
      let r := with_prop sec "soname_regexp" (read_regex_prop E)
        (fun v r => {r with base := {r.base with soname_regex := some v}}) r
      let r := with_prop sec "soname_not_regexp" (read_regex_prop E)
        (fun v r =>
          {r with base := {r.base with soname_not_regex := some v}}) r
      let r := with_drop_prop sec
        (fun v r => {r with base := {r.base with drops_artifact := v}}) r
      let r := fn_clear_invalid_drop r
      some (some r)

/-- The sufficient properties of a `[suppress_variable]` section. -/
def variable_sufficient_props : List String :=
  ["label", "file_name_regexp", "file_name_not_regexp", "soname_regexp",
   "soname_not_regexp", "name", "name_regexp", "name_not_regexp",
   "symbol_name", "symbol_name_regexp", "symbol_name_not_regexp",
   "symbol_version", "symbol_version_regexp", "type_name",
   "type_name_regexp"]

/-- The post-population clearing of the drop flag of a variable rule
(lines 4164-4174). -/
def var_clear_invalid_drop (r : VariableSuppression) : VariableSuppression :=
  if r.base.drops_artifact && r.name = "" && r.name_regex.isNone
     && r.name_not_regex.isNone && r.symbol_name = ""
     && r.symbol_name_regex.isNone && r.symbol_name_not_regex.isNone then
    {r with base := {r.base with drops_artifact := false}}
  else r

set_option maxHeartbeats 1000000 in
/-- Model of `read_variable_suppression` (lines 4013-4178). -/
def read_variable_suppression (E : RegexEngine) (sec : IniSection) :
    Option (Option VariableSuppression) :=
  if !check_sufficient_props variable_sufficient_props sec then some none
  else
    let r : VariableSuppression := {}
    let r := with_prop sec "label" read_string_prop
      (fun v r => {r with base := {r.base with label := v}}) r
    let r := with_prop sec "name" read_string_prop
      (fun v r => {r with name := v}) r
    let r := with_prop sec "name_regexp" (read_regex_prop E)
      (fun v r => {r with name_regex := some v}) r
    let r := with_prop sec "symbol_name" read_string_prop
      (fun v r => {r with symbol_name := v}) r
    let r := with_prop sec "symbol_name_regexp" (read_regex_prop E)
      (fun v r => {r with symbol_name_regex := some v}) r
    let r := with_prop sec "symbol_version" read_string_prop
      (fun v r => {r with symbol_version := v}) r
    let r := with_prop sec "symbol_version_regexp" (read_regex_prop E)
      (fun v r => {r with symbol_version_regex := some v}) r
    let r := with_prop sec "type_name" read_string_prop
      (fun v r => {r with type_name := v}) r
    let r := with_prop sec "type_name_regexp" (read_regex_prop E)
      (fun v r => {r with type_name_regex := some v}) r
    let r := with_prop sec "name_not_regexp" (read_regex_prop E)
      (fun v r => {r with name_not_regex := some v}) r
    let r := with_prop sec "symbol_name_not_regexp" (read_regex_prop E)
      (fun v r => {r with symbol_name_not_regex := some v}) r
    let r := with_prop sec "change_kind" read_string_prop
      (fun v r =>
        if v ≠ "" then {r with change_kind := var_parse_change_kind v}
        else r) r
    let r := with_prop sec "file_name_regexp" (read_regex_prop E)
      (fun v r => {r with base := {r.base with file_name_regex := some v}}) r
    let r := with_prop sec "file_name_not_regexp" (read_regex_prop E)
      (fun v r =>
        {r with base := {r.base with file_name_not_regex := some v}}) r
    let r := with_prop sec "soname_regexp" (read_regex_prop E)
      (fun v r => {r with base := {r.base with soname_regex := some v}}) r
    let r := with_prop sec "soname_not_regexp" (read_regex_prop E)
      (fun v r =>
        {r with base := {r.base with soname_not_regex := some v}}) r
    let r := with_drop_prop sec
      (fun v r => {r with base := {r.base with drops_artifact := v}}) r
    let r := var_clear_invalid_drop r
    some (some r)

/-- The sufficient properties of a `[suppress_file]` section. -/
def file_sufficient_props : List String :=
  ["file_name_regexp", "file_name_not_regexp", "soname_regexp",
   "soname_not_regexp"]

/-- Model of `read_file_suppression` (lines 4250-4307); the drop flag is set
exactly when a SONAME predicate is present. -/
def read_file_suppression (E : RegexEngine) (sec : IniSection) :
    Option (Option FileSuppression) :=
  if !check_sufficient_props file_sufficient_props sec then some none
  else
    let r : FileSuppression := {}
    let r := with_prop sec "label" read_string_prop
      (fun v r => {r with base := {r.base with label := v}}) r
    let r := with_prop sec "file_name_regexp" (read_regex_prop E)
      (fun v r => {r with base := {r.base with file_name_regex := some v}}) r
    let r := with_prop sec "file_name_not_regexp" (read_regex_prop E)
      (fun v r =>
        {r with base := {r.base with file_name_not_regex := some v}}) r
    let r := with_prop sec "soname_regexp" (read_regex_prop E)
      (fun v r => {r with base := {r.base with soname_regex := some v}}) r
    let r := with_prop sec "soname_not_regexp" (read_regex_prop E)
      (fun v r =>
        {r with base := {r.base with soname_not_regex := some v}}) r
    let r := {r with base :=
      {r.base with drops_artifact := has_soname_related_property r.base}}
    some (some r)

/-- The loop of `read_suppressions(const ini::config&, suppressions_type&)`
(lines 522-558): a recognized section that parses appends its rule; an
unknown or rejected section clears the success flag and parsing
continues. -/
def read_suppressions_loop (E : RegexEngine) :
    List IniSection → List Suppression → Bool → Option (Bool × List Suppression)
  | [], acc, success => some (success, acc)
  | sec :: rest, acc, success =>
    if sec.name = "suppress_type" then
      match read_type_suppression E sec with
      | none => none
      | some none => read_suppressions_loop E rest acc false
      | some (some s) =>
        read_suppressions_loop E rest (acc ++ [Suppression.type_suppr s]) success
    else if sec.name = "suppress_function" then
      match read_function_suppression E sec with
      | none => none
      | some none => read_suppressions_loop E rest acc false
      | some (some s) =>
        read_suppressions_loop E rest (acc ++ [Suppression.function_suppr s])
          success
    else if sec.name = "suppress_variable" then
      match read_variable_suppression E sec with
      | none => none
      | some none => read_suppressions_loop E rest acc false
      | some (some s) =>
        read_suppressions_loop E rest (acc ++ [Suppression.variable_suppr s])
          success
    else if sec.name = "suppress_file" then
      match read_file_suppression E sec with
      | none => none
      | some none => read_suppressions_loop E rest acc false
      | some (some s) =>
        read_suppressions_loop E rest (acc ++ [Suppression.file_suppr s]) success
    else read_suppressions_loop E rest acc false

/-- Model of `read_suppressions(const ini::config&, suppressions_type&)`:
the newly read rules are appended to `suppressions`; the result flag is
true iff every section was recognized and parsed. -/
def read_suppressions (E : RegexEngine) (config : List IniSection)
    (suppressions : List Suppression) : Option (Bool × List Suppression) :=
  read_suppressions_loop E config suppressions true

-- </rule parser: function, variable, file>

-- <concrete regex engines for witnesses and counterexamples>

/-- An engine on which every source compiles and every match succeeds. -/
def always_engine : RegexEngine :=
  { compiles := fun _ => true, rmatches := fun _ _ => true }

/-- An engine on which no source compiles. -/
def never_compiles_engine : RegexEngine :=
  { compiles := fun _ => false, rmatches := fun _ _ => false }

/-- An engine realizing the POSIX semantics of the single regex
`^libfoo\.so\..*`: it matches the strings starting with `libfoo.so.`. -/
def libfoo_engine : RegexEngine :=
  { compiles := fun _ => true
    rmatches := fun r s => r == "^libfoo\\.so\\..*" && str_starts_with s "libfoo.so." }

/-- An engine realizing the POSIX semantics of the single regex
`^_ZN3foo.*`: it matches the strings starting with `_ZN3foo`. -/
def zn3foo_engine : RegexEngine :=
  { compiles := fun _ => true
    rmatches := fun r s => r == "^_ZN3foo.*" && str_starts_with s "_ZN3foo" }

-- </concrete regex engines>

-- <claim C1>

/-- The file rule of scenario S6: its only predicate is
`soname_regexp = ^libfoo\.so\..*`. -/
def c1_rule : FileSuppression :=
  { base := { soname_regex := some "^libfoo\\.so\\..*" } }

/-- Claim C1, counterexample: for the soname-only file rule of S6,
`suppresses_file` returns false on `/usr/lib/libfoo.so.3` — not true as the
claim states (it also returns false on `/usr/lib/libbar.so.1`):
`suppresses_file` consults only the file-name regex pair, and the rule has
none, so `has_regexp` stays false. -/
theorem C1_counterexample :
    suppresses_file libfoo_engine c1_rule "/usr/lib/libfoo.so.3" = false
    ∧ suppresses_file libfoo_engine c1_rule "/usr/lib/libbar.so.1" = false := by
  exact ⟨rfl, rfl⟩

/-- Claim C1 (amended): `suppresses_file` consults only the file-name regex
pair of the rule (against the base name of the path); a file rule with no
file-name regex — in particular one whose only predicate is a
`soname_regexp` — returns false for every path. -/
theorem C1_soname_only_rule_never_suppresses_file (E : RegexEngine)
    (s : FileSuppression) (path : String)
    (h1 : s.base.file_name_regex = none)
    (h2 : s.base.file_name_not_regex = none) :
    suppresses_file E s path = false := by
  unfold suppresses_file
  rw [h1, h2]
  split <;> rfl

/-- Claim C1, witness: the amended theorem applied to the S6 rule and the
path `/usr/lib/libfoo.so.3`. -/
theorem C1_witness :
    suppresses_file libfoo_engine c1_rule "/usr/lib/libfoo.so.3" = false :=
  C1_soname_only_rule_never_suppresses_file libfoo_engine c1_rule
    "/usr/lib/libfoo.so.3" rfl rfl

-- </claim C1>

-- <claim C10>

/-- Claim C10: when a type rule's exact `type_name` is non-empty it alone
decides the name check — `name_regexp` and `name_not_regexp` are not
consulted, so the result is exactly the comparison with `type_name`,
whatever the regexes match. -/
theorem C10_exact_type_name_overrides_regexes (E : RegexEngine)
    (s : TypeSuppression) (type_name : String)
    (h : s.type_name ≠ "") :
    suppression_matches_type_name E s type_name
      = (s.type_name == type_name) := by
  unfold suppression_matches_type_name
  simp only [h, ne_eq, not_false_iff, true_or, if_true, ite_true]
  by_cases heq : s.type_name = type_name
  · simp [heq]
  · simp [heq, beq_iff_eq]

/-- Claim C10, witness: a type named `T` matches a rule whose exact name is
`T` even though its `name_not_regexp` (under `always_engine`) matches `T`
as well. -/
theorem C10_witness :
    suppression_matches_type_name always_engine
      { type_name := "T", type_name_not_regex := some "^T" } "T" = true
    ∧ regex_match always_engine "^T" "T" = true := by
  constructor
  · have h := C10_exact_type_name_overrides_regexes always_engine
      { type_name := "T", type_name_not_regex := some "^T" } "T" (by decide)
    simpa using h
  · rfl

-- </claim C10>

-- <claim C3>

/-- A type rule reached through `reference-or-pointer`. -/
def c3_rp_rule : TypeSuppression :=
  { consider_reach_kind := true, reach_kind := ReachKind.reference_or_pointer }

/-- The same predicate reached through `pointer` only. -/
def c3_p_rule : TypeSuppression :=
  { consider_reach_kind := true, reach_kind := ReachKind.pointer }

/-- A pointer diff whose underlying diff is a distinct-kind diff, i.e. not a
type diff. -/
def c3_bad_pointer_diff : DiffNode :=
  DiffNode.pointer_diff (TypeInfo.other_type "int*" none)
    (TypeInfo.other_type "long*" none) DiffNode.distinct_diff

/-- Claim C3: `type_suppression::suppresses_diff` is not total — under the
`reference-or-pointer` reach kind with a pointer diff whose underlying diff
is not a type diff, the source fails `ABG_ASSERT(d)` (modelled `none`),
whereas the parallel `pointer` reach-kind branch gracefully returns false
on the very same node. -/
theorem C3_reference_or_pointer_branch_aborts :
    type_suppresses_diff always_engine c3_rp_rule c3_bad_pointer_diff none
      = none
    ∧ type_suppresses_diff always_engine c3_p_rule c3_bad_pointer_diff none
      = some false := by
  exact ⟨rfl, rfl⟩

-- </claim C3>

-- <claim C2>

/-- The function rule of scenario S4: `change_kind = added-function`,
`symbol_name_regexp = ^_ZN3foo.*`, `allow_other_aliases = yes` (the
default). -/
def c2_rule : FunctionSuppression :=
  { change_kind := ADDED_FUNCTION_CHANGE_KIND,
    symbol_name_regex := some "^_ZN3foo.*" }

/-- The added symbol `_ZN3foo3barEv` with the alias `_ZN4quux3barEv`. -/
def c2_sym_bad_alias : ElfSymbol :=
  { name := "_ZN3foo3barEv", alias_names := ["_ZN4quux3barEv"] }

/-- Claim C2, counterexample: on the symbol-only path
(`suppresses_function_symbol`, the function the comparison engine uses for
added ELF symbols) the alias chain is never consulted: the added symbol
`_ZN3foo3barEv`, whose alias `_ZN4quux3barEv` does not match the regex, is
nevertheless suppressed. -/
theorem C2_counterexample :
    regex_match zn3foo_engine "^_ZN3foo.*" "_ZN4quux3barEv" = false
    ∧ suppresses_function_symbol zn3foo_engine c2_rule (some c2_sym_bad_alias)
        ADDED_FUNCTION_CHANGE_KIND none = some true := by
  exact ⟨rfl, rfl⟩

/-- Helper for claim C2: the symbol-alias walk of `suppresses_function`
fails as soon as one alias does not match `symbol_name_regexp`. -/
theorem sym_aliases_check_fails_of_mem (E : RegexEngine) (rx : Rx)
    (nrx : Option Rx) (a : String) (l : List String)
    (hmem : a ∈ l) (hfail : regex_match E rx a = false) :
    sym_aliases_check E (some rx) nrx l = false := by
  induction l with
  | nil => cases hmem
  | cons b rest ih =>
    rcases List.mem_cons.mp hmem with hb | hrest
    · subst hb
      unfold sym_aliases_check
      simp [hfail]
    · unfold sym_aliases_check
      by_cases h1 : regex_match E rx b
      · simp only [h1, Bool.not_true, if_false, Bool.false_eq_true, ite_false]
        cases nrx with
        | none => simpa using ih hrest
        | some nr =>
          by_cases h2 : regex_match E nr b
          · simp [h2]
          · simpa [h2] using ih hrest
      · simp [h1]

/-- Claim C2 (amended): the all-aliases rule holds on the declaration path
`function_suppression::suppresses_function`: with `allow_other_aliases` and
a `symbol_name_regexp`, a function whose own symbol name matches the regex
but one of whose aliases does not match is not suppressed.  (On the
symbol-only path `suppresses_function_symbol`, used for added/deleted ELF
symbols, aliases are ignored — see the counterexample.) -/
theorem C2_decl_path_alias_all_or_nothing (E : RegexEngine) (rx : Rx)
    (ck k : Nat) (fn : FunctionDecl) (sym : ElfSymbol) (a : String)
    (hsym : fn.symbol = some sym)
    (hmem : a ∈ sym.alias_names)
    (hfail : regex_match E rx a = false)
    (hmain : regex_match E rx sym.name = true)
    (hk : ¬ ck &&& k = 0) :
    suppresses_function E
      { change_kind := ck, symbol_name_regex := some rx } fn k none
      = some false := by
  have hne : sym.alias_names.isEmpty = false := by
    cases h : sym.alias_names with
    | nil => rw [h] at hmem; cases hmem
    | cons x xs => rfl
  have hcheck := sym_aliases_check_fails_of_mem E rx none a
    sym.alias_names hmem hfail
  unfold suppresses_function
  simp only [hk, if_false, hsym, has_aliases, hne, hmain, hcheck, ite_false,
    ite_true, Bool.not_false, Bool.not_true, Option.getD]
  norm_num [hcheck]

/-- Claim C2, witness: the amended theorem applied to the S4 inputs: the
added function `foo::bar` with symbol `_ZN3foo3barEv` and the alias
`_ZN4quux3barEv` is not suppressed on the declaration path. -/
theorem C2_witness :
    suppresses_function zn3foo_engine
      { change_kind := ADDED_FUNCTION_CHANGE_KIND,
        symbol_name_regex := some "^_ZN3foo.*" }
      { qualified_name := "foo::bar", symbol := some c2_sym_bad_alias }
      ADDED_FUNCTION_CHANGE_KIND none = some false :=
  C2_decl_path_alias_all_or_nothing zn3foo_engine "^_ZN3foo.*"
    ADDED_FUNCTION_CHANGE_KIND ADDED_FUNCTION_CHANGE_KIND
    { qualified_name := "foo::bar", symbol := some c2_sym_bad_alias }
    c2_sym_bad_alias "_ZN4quux3barEv" rfl (by decide) rfl rfl (by decide)

-- </claim C2>

-- <claim C4>

/-- A `[suppress_type]` section whose single property is a `name_regexp`
that does not compile (under `never_compiles_engine`). -/
def c4_bad_regex_section : IniSection :=
  { name := "suppress_type",
    properties := [⟨"name_regexp", PropertyValue.scalar "("⟩] }

/-- Claim C4, counterexample: a section whose regex-valued property fails
to compile is not invalidated: `read_type_suppression` accepts it and
produces a rule record (with the regex predicate silently dropped —
the resulting rule is the default, predicate-less type rule). -/
theorem C4_counterexample :
    read_type_suppression never_compiles_engine c4_bad_regex_section
      = some (some {}) := by
  rfl

/-- Claim C4 (amended): a failed regex compile does not invalidate the
containing section; the property is silently ignored.  For a
`[suppress_type]` section whose single property is a `name_regexp` with a
non-compiling source, the section is accepted and produces the default rule
record, whose `type_name_regex` is unset. -/
theorem C4_failed_regex_compile_still_produces_rule (E : RegexEngine)
    (src : String) (h : E.compiles src = false) :
    read_type_suppression E
      { name := "suppress_type",
        properties := [⟨"name_regexp", PropertyValue.scalar src⟩] }
      = some (some {}) := by
  unfold read_type_suppression
  simp [check_sufficient_props, type_sufficient_props, find_property,
    with_prop, with_drop_prop, read_regex_prop, read_string_prop,
    is_simple_property, regex_compile, h, collect_srcloc_not_in,
    inserted_at_ranges, inserted_between_ranges, members_between_ranges,
    collect_changed_enumerators, is_tuple_property, type_clear_invalid_drop,
    type_set_changed_enumerators, read_bool_prop]

/-- Claim C4, witness: the amended theorem applied to a section holding the
non-compiling regex source `[` under `never_compiles_engine`. -/
theorem C4_witness :
    read_type_suppression never_compiles_engine
      { name := "suppress_type",
        properties := [⟨"name_regexp", PropertyValue.scalar "["⟩] }
      = some (some {}) :=
  C4_failed_regex_compile_still_produces_rule never_compiles_engine "[" rfl

-- </claim C4>

-- <claim C7>

/-- The first class of the C7 example: members `a@0` and `b@32`. -/
def c7_first : ClassDecl :=
  { qualified_name := "S", size_in_bits := 64,
    data_members := [⟨"a", 0, true, 32⟩, ⟨"b", 32, true, 32⟩] }

/-- The second class of the C7 example: member `c@64` was appended. -/
def c7_second : ClassDecl :=
  { qualified_name := "S", size_in_bits := 96,
    data_members := [⟨"a", 0, true, 32⟩, ⟨"b", 32, true, 32⟩,
                     ⟨"c", 64, true, 32⟩] }

/-- A type rule on `S` whose first insertion range is out of order
(`[50, 40]`) and whose second admits offset 64 (`[60, 70]`). -/
def c7_rule : TypeSuppression :=
  { type_name := "S",
    insertion_ranges := [⟨SupprOffset.integer 50, SupprOffset.integer 40⟩,
                         ⟨SupprOffset.integer 60, SupprOffset.integer 70⟩] }

/-- Claim C7: an insertion range whose evaluated begin exceeds its evaluated
end admits no offset and is skipped, while the remaining ranges of the rule
are still consulted — such a range never makes the rule non-matching by
itself.  Concretely, the rule with ranges `[50,40]` and `[60,70]` still
suppresses the class diff that inserts `c@64`. -/
theorem C7_out_of_order_range_is_skipped :
    (∀ (cls : ClassDecl) (dmo b e : Nat) (rest : List OffsetRange)
        (matched : Bool), e < b →
      member_matches_ranges cls dmo
        (⟨SupprOffset.integer b, SupprOffset.integer e⟩ :: rest) matched
        = member_matches_ranges cls dmo rest matched)
    ∧ type_suppresses_diff always_engine c7_rule
        (DiffNode.class_diff c7_first c7_second []
          [⟨"c", 64, true, 32⟩]) none = some true := by
  constructor
  · intro cls dmo b e rest matched hlt
    have hbe : (boundary_value_is_end b && boundary_value_is_end e) = false := by
      by_cases hb : b = uint64_max
      · by_cases he' : e = uint64_max
        · subst hb; subst he'; exact absurd hlt (lt_irrefl _)
        · simp [boundary_value_is_end, he']
      · simp [boundary_value_is_end, hb]
    have hgt : b > e := hlt
    simp only [member_matches_ranges, offset_eval]
    rw [hbe]
    simp [hgt]
  · rfl

/-- Claim C7, witness: the skip law applied to the out-of-order range
`[50, 40]` in front of the range list `[[60, 70]]` at offset 64. -/
theorem C7_witness :
    member_matches_ranges c7_first 64
      [⟨SupprOffset.integer 50, SupprOffset.integer 40⟩,
       ⟨SupprOffset.integer 60, SupprOffset.integer 70⟩] false
      = member_matches_ranges c7_first 64
          [⟨SupprOffset.integer 60, SupprOffset.integer 70⟩] false :=
  C7_out_of_order_range_is_skipped.1 c7_first 64 50 40
    [⟨SupprOffset.integer 60, SupprOffset.integer 70⟩] false (by decide)

-- </claim C7>

-- <claim C8>

/-- Helper for C8: the member scan of the evaluator skips a prefix holding
no laid-out member of the sought name. -/
theorem fn_call_eval_scan_append (fname m : String) (cls : ClassDecl)
    (pre rest : List DataMember)
    (hpre : ∀ x ∈ pre, ¬(x.is_laid_out = true ∧ x.name = m)) :
    fn_call_eval_scan fname m cls (pre ++ rest)
      = fn_call_eval_scan fname m cls rest := by
  induction pre with
  | nil => rfl
  | cons x xs ih =>
    have hx := hpre x (List.mem_cons_self _ _)
    have hxs : ∀ y ∈ xs, ¬(y.is_laid_out = true ∧ y.name = m) :=
      fun y hy => hpre y (List.mem_cons_of_mem _ hy)
    simp only [List.cons_append, fn_call_eval_scan]
    by_cases hl : x.is_laid_out
    · have hn : ¬ x.name = m := fun h => hx ⟨hl, h⟩
      simp [hl, hn, ih hxs]
    · simp [hl, ih hxs]

/-- Helper for C8: the next-member scan skips a prefix not containing the
member. -/
theorem next_laid_out_offset_after_append (dm : DataMember)
    (pre rest : List DataMember) (hpre : ∀ x ∈ pre, x ≠ dm) :
    next_laid_out_offset_after dm (pre ++ rest)
      = next_laid_out_offset_after dm rest := by
  induction pre with
  | nil => rfl
  | cons x xs ih =>
    have hx := hpre x (List.mem_cons_self _ _)
    have hxs : ∀ y ∈ xs, y ≠ dm := fun y hy => hpre y (List.mem_cons_of_mem _ hy)
    simp only [List.cons_append, next_laid_out_offset_after]
    simp [hx, ih hxs]

/-- Helper for C8: a list without laid-out members yields no first laid-out
offset. -/
theorem first_laid_out_offset_eq_none (l : List DataMember)
    (h : ∀ x ∈ l, x.is_laid_out = false) :
    first_laid_out_offset l = none := by
  induction l with
  | nil => rfl
  | cons x xs ih =>
    have hx := h x (List.mem_cons_self _ _)
    have hxs : ∀ y ∈ xs, y.is_laid_out = false :=
      fun y hy => h y (List.mem_cons_of_mem _ hy)
    unfold first_laid_out_offset
    simp [hx, ih hxs]

/-- Helper for C8: the first laid-out member after a non-laid-out prefix
gives the first laid-out offset. -/
theorem first_laid_out_offset_decomp (npre : List DataMember) (n : DataMember)
    (npost : List DataMember) (hlaid : n.is_laid_out = true)
    (h : ∀ x ∈ npre, x.is_laid_out = false) :
    first_laid_out_offset (npre ++ n :: npost) = some n.offset := by
  induction npre with
  | nil => unfold first_laid_out_offset; simp [hlaid]
  | cons x xs ih =>
    have hx := h x (List.mem_cons_self _ _)
    have hxs : ∀ y ∈ xs, y.is_laid_out = false :=
      fun y hy => h y (List.mem_cons_of_mem _ hy)
    simp only [List.cons_append]
    unfold first_laid_out_offset
    simp [hx, ih hxs]

/-- Claim C8: evaluating `offset_after(m)` in the context of a class whose
member list decomposes as `pre ++ m :: post` (with no earlier laid-out
member named `m`) yields the offset of the next laid-out member when `post`
has one, and `offset_of(m) + size_in_bits(type_of(m))` when `m` is the last
laid-out member. -/
theorem C8_offset_after_equivalence (cls : ClassDecl)
    (pre post : List DataMember) (dm : DataMember) (m : String)
    (hsplit : cls.data_members = pre ++ dm :: post)
    (hlaid : dm.is_laid_out = true)
    (hname : dm.name = m)
    (hpre : ∀ x ∈ pre, ¬(x.is_laid_out = true ∧ x.name = m)) :
    ((∀ x ∈ post, x.is_laid_out = false) →
      offset_eval (SupprOffset.fn_call (some ⟨"offset_after", [m]⟩)) cls
        = EvalResult.ok (dm.offset + dm.size_in_bits))
    ∧ (∀ (npre : List DataMember) (n : DataMember) (npost : List DataMember),
        post = npre ++ n :: npost → n.is_laid_out = true →
        (∀ x ∈ npre, x.is_laid_out = false) →
        offset_eval (SupprOffset.fn_call (some ⟨"offset_after", [m]⟩)) cls
          = EvalResult.ok n.offset) := by
  have hpre' : ∀ x ∈ pre, x ≠ dm := by
    intro x hx heq
    exact hpre x hx (heq ▸ ⟨hlaid, hname⟩)
  have e1 : offset_eval (SupprOffset.fn_call (some ⟨"offset_after", [m]⟩)) cls
      = fn_call_eval_scan "offset_after" m cls cls.data_members := by
    simp [offset_eval]
  have e3 : get_next_data_member_offset cls dm = first_laid_out_offset post := by
    unfold get_next_data_member_offset
    rw [hsplit, next_laid_out_offset_after_append dm pre _ hpre']
    unfold next_laid_out_offset_after
    simp
  have e2 : offset_eval (SupprOffset.fn_call (some ⟨"offset_after", [m]⟩)) cls
      = (match first_laid_out_offset post with
         | some v => EvalResult.ok v
         | none => EvalResult.ok (dm.offset + dm.size_in_bits)) := by
    rw [e1, hsplit, fn_call_eval_scan_append "offset_after" m cls pre _ hpre]
    unfold fn_call_eval_scan
    rw [e3]
    simp [hlaid, hname]
  constructor
  · intro hnone
    rw [e2, first_laid_out_offset_eq_none post hnone]
  · intro npre n npost hdec hnl hnpre
    rw [e2, hdec, first_laid_out_offset_decomp npre n npost hnl hnpre]

/-- The class of the C8 witness: laid-out members `x@0` and `y@32`, each of
a 32-bit type. -/
def c8_class : ClassDecl :=
  { qualified_name := "C",
    data_members := [⟨"x", 0, true, 32⟩, ⟨"y", 32, true, 32⟩] }

/-- Claim C8, witness: on `c8_class`, `offset_after(x)` evaluates to the
next member's offset 32, and `offset_after(y)` (last member) evaluates to
32 + 32. -/
theorem C8_witness :
    offset_eval (SupprOffset.fn_call (some ⟨"offset_after", ["x"]⟩)) c8_class
      = EvalResult.ok 32
    ∧ offset_eval (SupprOffset.fn_call (some ⟨"offset_after", ["y"]⟩)) c8_class
      = EvalResult.ok 64 := by
  constructor
  · exact (C8_offset_after_equivalence c8_class [] [⟨"y", 32, true, 32⟩]
      ⟨"x", 0, true, 32⟩ "x" rfl rfl rfl (by intro x hx; cases hx)).2
      [] ⟨"y", 32, true, 32⟩ [] rfl rfl (by intro x hx; cases hx)
  · exact (C8_offset_after_equivalence c8_class [⟨"x", 0, true, 32⟩] []
      ⟨"y", 32, true, 32⟩ "y" rfl rfl rfl (by decide)).1
      (by intro x hx; cases hx)

-- </claim C8>

-- <claim C5>

/-- The insertion range whose bounds are both the "end" sentinel (what
`has_data_member_inserted_at = end` produces). -/
def end_end_range : OffsetRange :=
  ⟨SupprOffset.integer uint64_max, SupprOffset.integer uint64_max⟩

/-- Helper for C5: a type rule with an exact name equal to a class's
qualified name (and no other name/kind/location predicate) matches that
class. -/
theorem type_suppresses_type_self (E : RegexEngine) (f : ClassDecl)
    (ranges : List OffsetRange) :
    type_suppresses_type E
      { type_name := f.qualified_name, insertion_ranges := ranges }
      (TypeInfo.class_type f) = true := by
  unfold type_suppresses_type suppression_matches_type_no_name
    suppression_matches_type_location_type suppression_matches_type_name
  cases hloc : f.location <;> by_cases hqn : f.qualified_name = "" <;>
    simp [get_name, get_location, is_class_type, hloc, hqn,
      suppression_matches_type_location_loc]

/-- Helper for C5: against the single end-end range, an inserted offset is
admitted iff it strictly exceeds the last laid-out member's offset or is
itself the sentinel (the interval branch `b ≤ o ≤ e` admits `o = 2^64-1`
since both bounds are `2^64-1`). -/
theorem member_matches_end_end (f : ClassDecl) (o : Nat) (last : DataMember)
    (hlast : get_last_data_member f = some last) (ho : o ≤ uint64_max) :
    member_matches_ranges f o [end_end_range] false
      = some (decide (last.offset < o) || (o == uint64_max)) := by
  simp only [end_end_range, member_matches_ranges, offset_eval,
    boundary_value_is_end]
  rw [hlast]
  have hMgt : ¬ uint64_max > uint64_max := lt_irrefl _
  by_cases h1 : o > last.offset
  · simp [h1]
  · by_cases h2 : o = uint64_max
    · simp [h1, h2, hMgt]
    · have h3 : o < uint64_max := lt_of_le_of_ne ho h2
      simp [h1, h2, h3, hMgt]

/-- Helper for C5: the inserted-member loop against the single end-end
range computes the conjunction of the per-member conditions. -/
theorem inserted_members_match_end_end (s : TypeSuppression) (f : ClassDecl)
    (last : DataMember)
    (hr : s.insertion_ranges = [end_end_range])
    (hlast : get_last_data_member f = some last)
    (inserted : List DataMember)
    (hbound : ∀ m ∈ inserted, m.offset ≤ uint64_max) :
    inserted_members_match s f inserted
      = some (inserted.all
          (fun m => decide (last.offset < m.offset)
            || (m.offset == uint64_max))) := by
  induction inserted with
  | nil => rfl
  | cons m rest ih =>
    have hm := hbound m (List.mem_cons_self _ _)
    have hrest : ∀ x ∈ rest, x.offset ≤ uint64_max :=
      fun x hx => hbound x (List.mem_cons_of_mem _ hx)
    unfold inserted_members_match
    rw [hr, member_matches_end_end f m.offset last hlast hm]
    by_cases hcase : (decide (last.offset < m.offset)
        || (m.offset == uint64_max)) = true
    · simp [hcase, ih hrest]
    · simp only [Bool.not_eq_true] at hcase
      simp [hcase]

/-- Claim C5 (amended): for a class diff with no deleted members whose first
class does not shrink, a type rule whose single insertion range has both
bounds evaluating to the end sentinel matches exactly when every inserted
member's offset strictly exceeds the last laid-out member's offset of the
first class or equals the sentinel `2^64-1` itself (the latter admitted by
the interval branch `b ≤ o ≤ e` with `b = e = 2^64-1`). -/
theorem C5_end_end_range_match_characterization (E : RegexEngine)
    (f s2 : ClassDecl) (inserted : List DataMember) (last : DataMember)
    (hsize : f.size_in_bits ≤ s2.size_in_bits)
    (hlast : get_last_data_member f = some last)
    (hbound : ∀ m ∈ inserted, m.offset ≤ uint64_max) :
    type_suppresses_diff E
      { type_name := f.qualified_name, insertion_ranges := [end_end_range] }
      (DiffNode.class_diff f s2 [] inserted) none
      = some (inserted.all
          (fun m => decide (last.offset < m.offset)
            || (m.offset == uint64_max))) := by
  have hself := type_suppresses_type_self E f [end_end_range]
  have hmatch := inserted_members_match_end_end
    { type_name := f.qualified_name, insertion_ranges := [end_end_range] }
    f last rfl hlast inserted hbound
  unfold type_suppresses_diff
  simp only [is_type_diff, Bool.not_true, if_false, Bool.false_eq_true,
    ite_false, shape_by_reach_kind, ite_true]
  simp only [first_subject, second_subject]
  simp only [type_suppresses_type_ctxt, hself, Bool.true_or, if_true, ite_true]
  unfold type_diff_class_enum_checks
  cases hall : inserted.all
      (fun m => decide (last.offset < m.offset) || (m.offset == uint64_max)) with
  | true =>
    rw [hall] at hmatch
    simp [hmatch, hsize]
  | false =>
    rw [hall] at hmatch
    simp [hmatch, hsize]

/-- The first class of the C5 counterexample: one laid-out member at the
sentinel offset `2^64-1`. -/
def c5_first : ClassDecl :=
  { qualified_name := "S", data_members := [⟨"a", uint64_max, true, 8⟩] }

/-- The second class of the C5 counterexample. -/
def c5_second : ClassDecl := { qualified_name := "S" }

/-- The end-end type rule of the C5 counterexample. -/
def c5_rule : TypeSuppression :=
  { type_name := "S", insertion_ranges := [end_end_range] }

/-- The inserted member of the C5 counterexample, at the sentinel offset. -/
def c5_inserted : DataMember := ⟨"c", uint64_max, true, 8⟩

/-- Claim C5, counterexample: the rule matches the class diff that inserts
a member at offset `2^64-1` although that offset does not strictly exceed
the last member's offset (also `2^64-1`): the interval branch `b ≤ o ≤ e`
with both bounds at the sentinel admits it.  So "matches exactly when every
inserted offset strictly exceeds the last member's offset" fails. -/
theorem C5_counterexample :
    type_suppresses_diff always_engine c5_rule
      (DiffNode.class_diff c5_first c5_second [] [c5_inserted]) none
      = some true
    ∧ ¬ ((⟨"a", uint64_max, true, 8⟩ : DataMember).offset < c5_inserted.offset) := by
  exact ⟨rfl, by simp [c5_inserted]⟩

/-- Claim C5, witness: the amended characterization applied to scenario S2:
first class `a@0, b@32`, second class appends `c@64`; the diff is
suppressed since 64 strictly exceeds 32. -/
theorem C5_witness :
    type_suppresses_diff always_engine
      { type_name := "S", insertion_ranges := [end_end_range] }
      (DiffNode.class_diff
        { qualified_name := "S", size_in_bits := 64,
          data_members := [⟨"a", 0, true, 32⟩, ⟨"b", 32, true, 32⟩] }
        { qualified_name := "S", size_in_bits := 96,
          data_members := [⟨"a", 0, true, 32⟩, ⟨"b", 32, true, 32⟩,
                           ⟨"c", 64, true, 32⟩] }
        [] [⟨"c", 64, true, 32⟩]) none = some true := by
  have h := C5_end_end_range_match_characterization always_engine
    { qualified_name := "S", size_in_bits := 64,
      data_members := [⟨"a", 0, true, 32⟩, ⟨"b", 32, true, 32⟩] }
    { qualified_name := "S", size_in_bits := 96,
      data_members := [⟨"a", 0, true, 32⟩, ⟨"b", 32, true, 32⟩,
                       ⟨"c", 64, true, 32⟩] }
    [⟨"c", 64, true, 32⟩] ⟨"b", 32, true, 32⟩ (by decide) rfl
    (by intro m hm; simp at hm; subst hm; decide)
  simpa using h

-- </claim C5>

-- <claim C6>

/-- Helper for C6: the enumerator post-step changes only the enumerator
list. -/
theorem type_set_changed_enumerators_preserves (ns : List String)
    (r : TypeSuppression) :
    (type_set_changed_enumerators ns r).base.drops_artifact
        = r.base.drops_artifact
    ∧ (type_set_changed_enumerators ns r).type_name = r.type_name
    ∧ (type_set_changed_enumerators ns r).type_name_regex = r.type_name_regex
    ∧ (type_set_changed_enumerators ns r).source_location_to_keep_regex
        = r.source_location_to_keep_regex
    ∧ (type_set_changed_enumerators ns r).source_locations_to_keep
        = r.source_locations_to_keep := by
  unfold type_set_changed_enumerators
  split <;> exact ⟨rfl, rfl, rfl, rfl, rfl⟩

/-- Helper for C6: after the clearing step of the type reader, a surviving
drop flag guarantees a name or source-location predicate. -/
theorem type_clear_invalid_drop_invariant (r : TypeSuppression)
    (h : (type_clear_invalid_drop r).base.drops_artifact = true) :
    (type_clear_invalid_drop r).type_name ≠ ""
    ∨ (type_clear_invalid_drop r).type_name_regex.isSome = true
    ∨ (type_clear_invalid_drop r).source_location_to_keep_regex.isSome = true
    ∨ (type_clear_invalid_drop r).source_locations_to_keep ≠ [] := by
  unfold type_clear_invalid_drop at h ⊢
  split at h
  · simp at h
  · rename_i hcond
    split
    · rename_i hcond2
      exact absurd hcond2 hcond
    · by_cases hb : r.type_name_regex.isSome
      · right; left; exact hb
      · by_cases hc : r.type_name = ""
        · by_cases hd : r.source_location_to_keep_regex.isSome
          · right; right; left; exact hd
          · by_cases he' : r.source_locations_to_keep = []
            · exfalso
              apply hcond
              have hb' : r.type_name_regex.isNone = true := by
                cases hopt : r.type_name_regex with
                | none => rfl
                | some v => rw [hopt] at hb; simp at hb
              have hd' : r.source_location_to_keep_regex.isNone = true := by
                cases hopt : r.source_location_to_keep_regex with
                | none => rfl
                | some v => rw [hopt] at hd; simp at hd
              simp [h, hb', hc, hd', he']
            · right; right; right; exact he'
        · left; exact hc

/-- Helper for C6: the combined post-steps of the type reader preserve the
invariant. -/
theorem type_post_steps_invariant (ns : List String) (x : TypeSuppression)
    (h : (type_set_changed_enumerators ns
        (type_clear_invalid_drop x)).base.drops_artifact = true) :
    (type_set_changed_enumerators ns
        (type_clear_invalid_drop x)).type_name ≠ ""
    ∨ (type_set_changed_enumerators ns
        (type_clear_invalid_drop x)).type_name_regex.isSome = true
    ∨ (type_set_changed_enumerators ns
        (type_clear_invalid_drop x)).source_location_to_keep_regex.isSome = true
    ∨ (type_set_changed_enumerators ns
        (type_clear_invalid_drop x)).source_locations_to_keep ≠ [] := by
  have p := type_set_changed_enumerators_preserves ns (type_clear_invalid_drop x)
  rw [p.1] at h
  rcases type_clear_invalid_drop_invariant x h with h1 | h2 | h3 | h4
  · left; rw [p.2.1]; exact h1
  · right; left; rw [p.2.2.1]; exact h2
  · right; right; left; rw [p.2.2.2.1]; exact h3
  · right; right; right; rw [p.2.2.2.2]; exact h4

/-- Helper for C6: after the clearing step of the function reader, a
surviving drop flag guarantees a name or symbol-name predicate. -/
theorem fn_clear_invalid_drop_invariant (r : FunctionSuppression)
    (h : (fn_clear_invalid_drop r).base.drops_artifact = true) :
    (fn_clear_invalid_drop r).name ≠ ""
    ∨ (fn_clear_invalid_drop r).name_regex.isSome = true
    ∨ (fn_clear_invalid_drop r).name_not_regex.isSome = true
    ∨ (fn_clear_invalid_drop r).symbol_name ≠ ""
    ∨ (fn_clear_invalid_drop r).symbol_name_regex.isSome = true
    ∨ (fn_clear_invalid_drop r).symbol_name_not_regex.isSome = true := by
  unfold fn_clear_invalid_drop at h ⊢
  split at h
  · simp at h
  · rename_i hcond
    split
    · rename_i hcond2
      exact absurd hcond2 hcond
    · by_cases ha : r.name = ""
      · by_cases hb : r.name_regex.isSome
        · right; left; exact hb
        · by_cases hc : r.name_not_regex.isSome
          · right; right; left; exact hc
          · by_cases hd : r.symbol_name = ""
            · by_cases he' : r.symbol_name_regex.isSome
              · right; right; right; right; left; exact he'
              · by_cases hf : r.symbol_name_not_regex.isSome
                · right; right; right; right; right; exact hf
                · exfalso
                  apply hcond
                  have hb' : r.name_regex.isNone = true := by
                    cases hopt : r.name_regex with
                    | none => rfl
                    | some v => rw [hopt] at hb; simp at hb
                  have hc' : r.name_not_regex.isNone = true := by
                    cases hopt : r.name_not_regex with
                    | none => rfl
                    | some v => rw [hopt] at hc; simp at hc
                  have he2 : r.symbol_name_regex.isNone = true := by
                    cases hopt : r.symbol_name_regex with
                    | none => rfl
                    | some v => rw [hopt] at he'; simp at he'
                  have hf' : r.symbol_name_not_regex.isNone = true := by
                    cases hopt : r.symbol_name_not_regex with
                    | none => rfl
                    | some v => rw [hopt] at hf; simp at hf
                  simp [h, ha, hb', hc', hd, he2, hf']
            · right; right; right; left; exact hd
      · left; exact ha

/-- Helper for C6: after the clearing step of the variable reader
(lines 4164-4174), a surviving drop flag guarantees a name or symbol-name
predicate. -/
theorem var_clear_invalid_drop_invariant (r : VariableSuppression)
    (h : (var_clear_invalid_drop r).base.drops_artifact = true) :
    (var_clear_invalid_drop r).name ≠ ""
    ∨ (var_clear_invalid_drop r).name_regex.isSome = true
    ∨ (var_clear_invalid_drop r).name_not_regex.isSome = true
    ∨ (var_clear_invalid_drop r).symbol_name ≠ ""
    ∨ (var_clear_invalid_drop r).symbol_name_regex.isSome = true
    ∨ (var_clear_invalid_drop r).symbol_name_not_regex.isSome = true := by
  unfold var_clear_invalid_drop at h ⊢
  split at h
  · simp at h
  · rename_i hcond
    split
    · rename_i hcond2
      exact absurd hcond2 hcond
    · by_cases ha : r.name = ""
      · by_cases hb : r.name_regex.isSome
        · right; left; exact hb
        · by_cases hc : r.name_not_regex.isSome
          · right; right; left; exact hc
          · by_cases hd : r.symbol_name = ""
            · by_cases he' : r.symbol_name_regex.isSome
              · right; right; right; right; left; exact he'
              · by_cases hf : r.symbol_name_not_regex.isSome
                · right; right; right; right; right; exact hf
                · exfalso
                  apply hcond
                  have hb' : r.name_regex.isNone = true := by
                    cases hopt : r.name_regex with
                    | none => rfl
                    | some v => rw [hopt] at hb; simp at hb
                  have hc' : r.name_not_regex.isNone = true := by
                    cases hopt : r.name_not_regex with
                    | none => rfl
                    | some v => rw [hopt] at hc; simp at hc
                  have he2 : r.symbol_name_regex.isNone = true := by
                    cases hopt : r.symbol_name_regex with
                    | none => rfl
                    | some v => rw [hopt] at he'; simp at he'
                  have hf' : r.symbol_name_not_regex.isNone = true := by
                    cases hopt : r.symbol_name_not_regex with
                    | none => rfl
                    | some v => rw [hopt] at hf; simp at hf
                  simp [h, ha, hb', hc', hd, he2, hf']
            · right; right; right; left; exact hd
      · left; exact ha

/-- Claim C6 (amended): a rule built from a `suppress_type`,
`suppress_function` or `suppress_variable` section has
`drop_from_ir = true` only if it carries a name, symbol-name or
source-location predicate; a `drop = yes` section without any of those
either yields a rule with the flag cleared (when some sufficient property,
e.g. a binary-scope regex, is present) or — as the counterexample shows for
a section with only `change_kind` — is rejected outright and yields no rule
at all. -/
theorem C6_drop_requires_name_like_predicate :
    (∀ (E : RegexEngine) (sec : IniSection) (r : TypeSuppression),
      read_type_suppression E sec = some (some r) →
      r.base.drops_artifact = true →
      r.type_name ≠ "" ∨ r.type_name_regex.isSome = true
        ∨ r.source_location_to_keep_regex.isSome = true
        ∨ r.source_locations_to_keep ≠ [])
    ∧ (∀ (E : RegexEngine) (sec : IniSection) (r : FunctionSuppression),
      read_function_suppression E sec = some (some r) →
      r.base.drops_artifact = true →
      r.name ≠ "" ∨ r.name_regex.isSome = true ∨ r.name_not_regex.isSome = true
        ∨ r.symbol_name ≠ "" ∨ r.symbol_name_regex.isSome = true
        ∨ r.symbol_name_not_regex.isSome = true)
    ∧ (∀ (E : RegexEngine) (sec : IniSection) (r : VariableSuppression),
      read_variable_suppression E sec = some (some r) →
      r.base.drops_artifact = true →
      r.name ≠ "" ∨ r.name_regex.isSome = true ∨ r.name_not_regex.isSome = true
        ∨ r.symbol_name ≠ "" ∨ r.symbol_name_regex.isSome = true
        ∨ r.symbol_name_not_regex.isSome = true) := by
  refine ⟨?_, ?_, ?_⟩
  · intro E sec r h hdrop
    unfold read_type_suppression at h
    by_cases h1 : check_sufficient_props type_sufficient_props sec
    · rw [h1] at h
      simp only [Bool.not_true, Bool.false_eq_true, if_false, ite_false] at h
      cases hbtw : inserted_between_ranges sec with
      | none => rw [hbtw] at h; simp at h
      | some r_btw =>
        rw [hbtw] at h
        cases hbtws : members_between_ranges sec with
        | none => rw [hbtws] at h; simp at h
        | some r_btws =>
          rw [hbtws] at h
          simp only [Option.some.injEq] at h
          subst h
          exact type_post_steps_invariant _ _ hdrop
    · simp only [Bool.not_eq_true] at h1
      rw [h1] at h
      simp at h
  · intro E sec r h hdrop
    unfold read_function_suppression at h
    by_cases h1 : check_sufficient_props function_sufficient_props sec
    · rw [h1] at h
      simp only [Bool.not_true, Bool.false_eq_true, if_false, ite_false] at h
      cases hps : collect_parameter_specs E sec.properties with
      | none => rw [hps] at h; simp at h
      | some parms =>
        rw [hps] at h
        simp only [Option.some.injEq] at h
        subst h
        exact fn_clear_invalid_drop_invariant _ hdrop
    · simp only [Bool.not_eq_true] at h1
      rw [h1] at h
      simp at h
  · intro E sec r h hdrop
    unfold read_variable_suppression at h
    by_cases h1 : check_sufficient_props variable_sufficient_props sec
    · rw [h1] at h
      simp only [Bool.not_true, Bool.false_eq_true, if_false, ite_false] at h
      simp only [Option.some.injEq] at h
      subst h
      exact var_clear_invalid_drop_invariant _ hdrop
    · simp only [Bool.not_eq_true] at h1
      rw [h1] at h
      simp at h

/-- A `[suppress_function]` section carrying only `change_kind` and
`drop`. -/
def c6_change_kind_only_section : IniSection :=
  { name := "suppress_function",
    properties := [⟨"change_kind", PropertyValue.scalar "all"⟩,
                   ⟨"drop", PropertyValue.scalar "yes"⟩] }

/-- Claim C6, counterexample: the claim says a `drop = yes` section with
only `change_kind` "yields a rule whose drop_from_ir is false"; in fact the
section carries no sufficient property (`change_kind` and `drop` are not
sufficient), so the reader rejects it and no rule at all is produced. -/
theorem C6_counterexample :
    read_function_suppression always_engine c6_change_kind_only_section
      = some none := by
  rfl

/-- Claim C6, witness: the function and variable parts of the amended
invariant applied to sections with a `name` (resp. `symbol_name`) predicate
and `drop = yes`: each produced rule keeps the flag and indeed carries the
predicate. -/
theorem C6_witness :
    (({ name := "foo", base := { drops_artifact := true } }
        : FunctionSuppression).name ≠ ""
      ∨ ({ name := "foo", base := { drops_artifact := true } }
        : FunctionSuppression).name_regex.isSome = true
      ∨ ({ name := "foo", base := { drops_artifact := true } }
        : FunctionSuppression).name_not_regex.isSome = true
      ∨ ({ name := "foo", base := { drops_artifact := true } }
        : FunctionSuppression).symbol_name ≠ ""
      ∨ ({ name := "foo", base := { drops_artifact := true } }
        : FunctionSuppression).symbol_name_regex.isSome = true
      ∨ ({ name := "foo", base := { drops_artifact := true } }
        : FunctionSuppression).symbol_name_not_regex.isSome = true)
    ∧ (({ symbol_name := "bar", base := { drops_artifact := true } }
        : VariableSuppression).name ≠ ""
      ∨ ({ symbol_name := "bar", base := { drops_artifact := true } }
        : VariableSuppression).name_regex.isSome = true
      ∨ ({ symbol_name := "bar", base := { drops_artifact := true } }
        : VariableSuppression).name_not_regex.isSome = true
      ∨ ({ symbol_name := "bar", base := { drops_artifact := true } }
        : VariableSuppression).symbol_name ≠ ""
      ∨ ({ symbol_name := "bar", base := { drops_artifact := true } }
        : VariableSuppression).symbol_name_regex.isSome = true
      ∨ ({ symbol_name := "bar", base := { drops_artifact := true } }
        : VariableSuppression).symbol_name_not_regex.isSome = true) :=
  ⟨C6_drop_requires_name_like_predicate.2.1 always_engine
    { name := "suppress_function",
      properties := [⟨"name", PropertyValue.scalar "foo"⟩,
                     ⟨"drop", PropertyValue.scalar "yes"⟩] }
    { name := "foo", base := { drops_artifact := true } }
    rfl rfl,
  C6_drop_requires_name_like_predicate.2.2 always_engine
    { name := "suppress_variable",
      properties := [⟨"symbol_name", PropertyValue.scalar "bar"⟩,
                     ⟨"drop", PropertyValue.scalar "yes"⟩] }
    { symbol_name := "bar", base := { drops_artifact := true } }
    rfl rfl⟩

-- </claim C6>

-- <claim C9>

/-- Spec-side predicate for C9: the section is recognized and parses
successfully. -/
def section_parses_ok (E : RegexEngine) (sec : IniSection) : Bool :=
  if sec.name = "suppress_type" then
    match read_type_suppression E sec with
    | some (some _) => true
    | _ => false
  else if sec.name = "suppress_function" then
    match read_function_suppression E sec with
    | some (some _) => true
    | _ => false
  else if sec.name = "suppress_variable" then
    match read_variable_suppression E sec with
    | some (some _) => true
    | _ => false
  else if sec.name = "suppress_file" then
    match read_file_suppression E sec with
    | some (some _) => true
    | _ => false
  else false

/-- Spec-side function for C9: the rule a section contributes to the
output, if any. -/
def section_rule (E : RegexEngine) (sec : IniSection) : Option Suppression :=
  if sec.name = "suppress_type" then
    match read_type_suppression E sec with
    | some (some s) => some (Suppression.type_suppr s)
    | _ => none
  else if sec.name = "suppress_function" then
    match read_function_suppression E sec with
    | some (some s) => some (Suppression.function_suppr s)
    | _ => none
  else if sec.name = "suppress_variable" then
    match read_variable_suppression E sec with
    | some (some s) => some (Suppression.variable_suppr s)
    | _ => none
  else if sec.name = "suppress_file" then
    match read_file_suppression E sec with
    | some (some s) => some (Suppression.file_suppr s)
    | _ => none
  else none

/-- Helper for C9: the loop of `read_suppressions` returns the conjunction
of the per-section successes and appends exactly the successfully parsed
rules to the accumulator. -/
theorem read_suppressions_loop_characterization (E : RegexEngine) :
    ∀ (secs : List IniSection) (acc : List Suppression) (success : Bool)
      (res : Bool × List Suppression),
    read_suppressions_loop E secs acc success = some res →
    res.1 = (success && secs.all (section_parses_ok E))
    ∧ res.2 = acc ++ secs.filterMap (section_rule E) := by
  intro secs
  induction secs with
  | nil =>
    intro acc success res h
    unfold read_suppressions_loop at h
    simp only [Option.some.injEq] at h
    subst h
    simp
  | cons sec rest ih =>
    intro acc success res h
    unfold read_suppressions_loop at h
    by_cases ht : sec.name = "suppress_type"
    · rw [if_pos ht] at h
      cases hr : read_type_suppression E sec with
      | none => rw [hr] at h; simp at h
      | some o =>
        rw [hr] at h
        cases o with
        | none =>
          obtain ⟨ha, hb⟩ := ih _ _ _ h
          refine ⟨?_, ?_⟩
          · rw [ha]; simp [List.all_cons, section_parses_ok, ht, hr]
          · rw [hb]; simp [List.filterMap_cons, section_rule, ht, hr]
        | some s =>
          obtain ⟨ha, hb⟩ := ih _ _ _ h
          refine ⟨?_, ?_⟩
          · rw [ha]; simp [List.all_cons, section_parses_ok, ht, hr]
          · rw [hb]
            simp [List.filterMap_cons, section_rule, ht, hr]
    · rw [if_neg ht] at h
      by_cases hf : sec.name = "suppress_function"
      · rw [if_pos hf] at h
        cases hr : read_function_suppression E sec with
        | none => rw [hr] at h; simp at h
        | some o =>
          rw [hr] at h
          cases o with
          | none =>
            obtain ⟨ha, hb⟩ := ih _ _ _ h
            refine ⟨?_, ?_⟩
            · rw [ha]; simp [List.all_cons, section_parses_ok, ht, hf, hr]
            · rw [hb]; simp [List.filterMap_cons, section_rule, ht, hf, hr]
          | some s =>
            obtain ⟨ha, hb⟩ := ih _ _ _ h
            refine ⟨?_, ?_⟩
            · rw [ha]; simp [List.all_cons, section_parses_ok, ht, hf, hr]
            · rw [hb]; simp [List.filterMap_cons, section_rule, ht, hf, hr]
      · rw [if_neg hf] at h
        by_cases hv : sec.name = "suppress_variable"
        · rw [if_pos hv] at h
          cases hr : read_variable_suppression E sec with
          | none => rw [hr] at h; simp at h
          | some o =>
            rw [hr] at h
            cases o with
            | none =>
              obtain ⟨ha, hb⟩ := ih _ _ _ h
              refine ⟨?_, ?_⟩
              · rw [ha]; simp [List.all_cons, section_parses_ok, ht, hf, hv, hr]
              · rw [hb]
                simp [List.filterMap_cons, section_rule, ht, hf, hv, hr]
            | some s =>
              obtain ⟨ha, hb⟩ := ih _ _ _ h
              refine ⟨?_, ?_⟩
              · rw [ha]; simp [List.all_cons, section_parses_ok, ht, hf, hv, hr]
              · rw [hb]
                simp [List.filterMap_cons, section_rule, ht, hf, hv, hr]
        · rw [if_neg hv] at h
          by_cases hfl : sec.name = "suppress_file"
          · rw [if_pos hfl] at h
            cases hr : read_file_suppression E sec with
            | none => rw [hr] at h; simp at h
            | some o =>
              rw [hr] at h
              cases o with
              | none =>
                obtain ⟨ha, hb⟩ := ih _ _ _ h
                refine ⟨?_, ?_⟩
                · rw [ha]
                  simp [List.all_cons, section_parses_ok, ht, hf, hv, hfl, hr]
                · rw [hb]
                  simp [List.filterMap_cons, section_rule, ht, hf, hv, hfl, hr]
              | some s =>
                obtain ⟨ha, hb⟩ := ih _ _ _ h
                refine ⟨?_, ?_⟩
                · rw [ha]
                  simp [List.all_cons, section_parses_ok, ht, hf, hv, hfl, hr]
                · rw [hb]
                  simp [List.filterMap_cons, section_rule, ht, hf, hv, hfl, hr]
          · rw [if_neg hfl] at h
            obtain ⟨ha, hb⟩ := ih _ _ _ h
            refine ⟨?_, ?_⟩
            · rw [ha]; simp [List.all_cons, section_parses_ok, ht, hf, hv, hfl]
            · rw [hb]
              simp [List.filterMap_cons, section_rule, ht, hf, hv, hfl]

/-- Claim C9: `read_suppressions` returns true iff every section of the
configuration was recognized and parsed successfully, and on partial
failure the rules of every successfully parsed section are still appended
to the output vector, in order, with no rollback. -/
theorem C9_partial_failure_keeps_parsed_rules (E : RegexEngine)
    (config : List IniSection) (init : List Suppression)
    (res : Bool × List Suppression)
    (h : read_suppressions E config init = some res) :
    res.1 = config.all (section_parses_ok E)
    ∧ res.2 = init ++ config.filterMap (section_rule E) := by
  have hc := read_suppressions_loop_characterization E config init true res h
  simpa using hc

/-- The C9 witness configuration: a valid file section followed by an
unknown section. -/
def c9_config : List IniSection :=
  [{ name := "suppress_file",
     properties := [⟨"soname_regexp", PropertyValue.scalar "^libfoo\\.so\\..*"⟩] },
   { name := "bogus_section", properties := [] }]

/-- The rule the valid C9 section produces. -/
def c9_file_rule : FileSuppression :=
  { base := { drops_artifact := true,
              soname_regex := some "^libfoo\\.so\\..*" } }

/-- Claim C9, witness: on a configuration with one valid file section and
one unknown section, the result flag is false yet the file rule of the
valid section is in the output. -/
theorem C9_witness :
    ((false, [Suppression.file_suppr c9_file_rule])
        : Bool × List Suppression).1
      = c9_config.all (section_parses_ok libfoo_engine)
    ∧ ((false, [Suppression.file_suppr c9_file_rule])
        : Bool × List Suppression).2
      = [] ++ c9_config.filterMap (section_rule libfoo_engine) :=
  C9_partial_failure_keeps_parsed_rules libfoo_engine c9_config []
    (false, [Suppression.file_suppr c9_file_rule]) rfl

-- </claim C9>

end Abg
